import Mathlib

/-!
# Machine provisioning and registry-certificate bootstrap

A shallow embedding of `tsuru/installer/dm/dockermachine.go`.

* Go maps of type `map[string]interface{}` are `Option Table`: `none` is the nil map, a
  `Table` is an association list with pairwise distinct keys.
* The `uint64` field `machinesCount` is a natural number reduced modulo `2 ^ 64` by
  `atomicAddUint64`.
* A Go call either returns normally, returns a non-nil `error`, or stops in a run-time
  fault (nil map write, nil dereference, index out of range): type `Outcome`.
* The collaborators (backend API, file system, PEM and X.509 decoding, certificate
  generator, remote shell, remote file copy) are the fields of `Env`. The effectful ones
  receive the history of events so far, so their answers may change from call to call.
* Every call to a collaborator is appended, with its answer, to the `trace` of the state.
-/

namespace Dm

/-- Values stored in the `interface{}` slots of a driver-option map. -/
inductive Value where
  | bool (b : Bool)
  | str (s : String)
  | num (n : Int)
  deriving DecidableEq, Repr

/-- An allocated `map[string]interface{}`: keys are pairwise distinct. -/
abbrev Table := AList (fun _ : String => Value)

/-- A Go map value: `none` is the nil map. -/
abbrev GoMap := Option Table

/-- The error message carried by a non-nil Go `error`. -/
abbrev Err := String

/-- Identity of the host handle (`m.Host`) that remote commands are sent to. -/
abbrev Target := String

/-- File contents. -/
abbrev Bytes := List Nat

/-- How a Go call ends: normal return, non-nil error, or a run-time fault. -/
inductive Outcome (α : Type) where
  | ok (a : α)
  | error (e : Err)
  | abort (reason : String)
  deriving DecidableEq, Repr

/-- The fields of `DockerMachine` other than the backend handle `API`. -/
structure DockerMachine where
  driverName : String
  Name : String
  storePath : String
  certsPath : String
  machinesCount : Nat
  globalDriverOpts : GoMap
  dockerHubMirror : String

/-- Argument of `NewDockerMachine`, `DockerMachineConfig`. -/
structure DockerMachineConfig where
  DriverName : String
  CAPath : String
  Name : String
  DriverOpts : GoMap
  DockerHubMirror : String

/-- Argument of the backend call, `dockermachine.CreateMachineOpts`. -/
structure CreateMachineOpts where
  Name : String
  DriverName : String
  Params : Table
  RegistryMirror : String

/-- What this file reads from a `*dockermachine.Machine`. `authOptions` is
`m.Host.AuthOptions()`: `none` when nil, otherwise its `ServerCertSANs`. -/
structure Machine where
  Address : String
  Host : Target
  sshUsername : String
  authOptions : Option (List String)
  deriving DecidableEq, Repr

/-- Argument of `GenerateCert`, `cert.Options`. -/
structure CertOptions where
  Hosts : List String
  CertFile : String
  KeyFile : String
  CAFile : String
  CAKeyFile : String
  Org : String
  Bits : Nat
  SwarmMaster : Bool
  deriving DecidableEq, Repr

/-- What this file reads from a parsed `x509.Certificate`: the `String()` rendering of
each entry of `IPAddresses`. -/
structure Certificate where
  IPAddresses : List String
  deriving DecidableEq, Repr

/-- One call to a collaborator, with the answer it gave. -/
inductive Event where
  | apiCreateMachine (opts : CreateMachineOpts) (res : Except Err Machine)
  | configureAuth (m : Machine) (res : Option Err)
  | apiDeleteAll (res : Option Err)
  | apiClose (res : Option Err)
  | stat (path : String) (notExist : Bool)
  | readFile (path : String) (res : Except Err Bytes)
  | generateCert (opts : CertOptions) (res : Option Err)
  | print (text : String)
  | runSSHCommand (target : Target) (cmd : String) (res : Option Err)
  | writeRemoteFile (target : Target) (src dst : String) (res : Option Err)

/-- The collaborators. `Option Err` is a Go `error` result: `none` is nil. -/
structure Env where
  /-- Backend `API.CreateMachine`. -/
  apiCreateMachine : List Event → CreateMachineOpts → Except Err Machine
  /-- Method `m.Host.ConfigureAuth()`. -/
  configureAuth : List Event → Machine → Option Err
  /-- Backend `API.DeleteAll`. -/
  apiDeleteAll : List Event → Option Err
  /-- Backend `API.Close`. -/
  apiClose : List Event → Option Err
  /-- Package function `GetPrivateIP`. -/
  getPrivateIP : Machine → String
  /-- Value of `os.IsNotExist(err)` for the error of `os.Stat(path)`. -/
  statNotExist : List Event → String → Bool
  /-- Function `ioutil.ReadFile`. -/
  readFile : List Event → String → Except Err Bytes
  /-- Function `pem.Decode`: the `Bytes` of the first block, `none` when the returned
  block pointer is nil (no PEM data found). -/
  pemDecode : Bytes → Option Bytes
  /-- Function `x509.ParseCertificate`. -/
  parseCertificate : Bytes → Except Err Certificate
  /-- Function `mcnutils.GetUsername`. -/
  getUsername : String
  /-- Method `GenerateCert` of `cert.X509CertGenerator`. -/
  generateCert : List Event → CertOptions → Option Err
  /-- Method `RunSSHCommand` of the target; only the error is read by the callers. -/
  runSSHCommand : List Event → Target → String → Option Err
  /-- Package function `writeRemoteFile`. -/
  writeRemoteFile : List Event → Target → String → String → Option Err
  /-- Function `filepath.Join` on two elements. -/
  join : String → String → String
  /-- Package variable `storeBasePath`. -/
  storeBasePath : String
  /-- Backend constructor `dockermachine.NewDockerMachine`, given `CaPath` and
  `StorePath`: the error it returns, if any. -/
  newBackend : String → String → Option Err
  /-- Order in which `range` visits the entries of the `fileCopies` map. -/
  rangeOrder : List (String × String) → List (String × String)

/-- The mutable state threaded through a call: the orchestrator and the event history. -/
structure St where
  d : DockerMachine
  trace : List Event

/-- A stateful Go call returning `α`. -/
def M (α : Type) : Type := St → Outcome α × St

/-- Normal return of a value. -/
def M.ret {α : Type} (a : α) : M α := fun s => (Outcome.ok a, s)

/-- Sequencing: an error or a fault of the first call ends the whole call. -/
def M.andThen {α β : Type} (x : M α) (f : α → M β) : M β := fun s =>
  match x s with
  | (Outcome.ok a, s1) => f a s1
  | (Outcome.error e, s1) => (Outcome.error e, s1)
  | (Outcome.abort r, s1) => (Outcome.abort r, s1)

/-- Append an event to the history. -/
def St.log (s : St) (e : Event) : St :=
  { s with trace := s.trace ++ [e] }

/-! ## Maps -/

/-- Statement `m[k] = v` on an allocated map. -/
def Table.set (m : Table) (k : String) (v : Value) : Table :=
  m.insert k v

/-- Loop `for k, v := range src { dst[k] = v }` visiting `entries` in the given order. -/
def rangeInto (entries : List (Sigma fun _ : String => Value)) (dst : Table) : Table :=
  entries.foldl (fun acc e => Table.set acc e.1 e.2) dst

/-- Two maps are the same map when every key reads the same in both; the order in which
entries were stored is not observable. -/
def Table.sameAs (a b : Table) : Prop :=
  ∀ k : String, a.lookup k = b.lookup k

/-- Entries visited by `range` over a map; ranging over the nil map visits nothing. -/
def GoMap.entries : GoMap → List (Sigma fun _ : String => Value)
  | none => []
  | some t => t.entries

/-- Expression `m[k]` with the comma-ok form; reading the nil map finds nothing. -/
def GoMap.lookup (m : GoMap) (k : String) : Option Value :=
  match m with
  | none => none
  | some t => t.lookup k

/-! ## Name generation -/

/-- Call `atomic.AddUint64(&d.machinesCount, delta)`: addition wraps at `2 ^ 64`. -/
def atomicAddUint64 (d : DockerMachine) (delta : Nat) : DockerMachine :=
  { d with machinesCount := (d.machinesCount + delta) % 2 ^ 64 }

/-- Call `atomic.LoadUint64(&d.machinesCount)`. -/
def atomicLoadUint64 (d : DockerMachine) : Nat :=
  d.machinesCount

/-- Expression `fmt.Sprintf("%s-%d", name, n)`. -/
def sprintfName (name : String) (n : Nat) : String :=
  name ++ "-" ++ toString n

/-- Method `generateMachineName` run without interference: the returned name and the
orchestrator afterwards. -/
def generateMachineName (d : DockerMachine) : String × DockerMachine :=
  let d1 := atomicAddUint64 d 1
  (sprintfName d1.Name (atomicLoadUint64 d1), d1)

/-- The names returned by `n` successive calls of `generateMachineName`, oldest first,
and the orchestrator afterwards. -/
def generateNames : Nat → DockerMachine → List String × DockerMachine
  | 0, d => ([], d)
  | n + 1, d =>
    let r := generateMachineName d
    let rest := generateNames n r.2
    (r.1 :: rest.1, rest.2)

/-! ## CreateMachine -/

/-- The four assignments at the top of `CreateMachine`, on an allocated map. -/
def reservedOverrides (c : Table) : Table :=
  let c1 := Table.set c "swarm-master" (Value.bool false)
  let c2 := Table.set c1 "swarm-host" (Value.str "")
  let c3 := Table.set c2 "engine-install-url" (Value.str "")
  Table.set c3 "swarm-discovery" (Value.str "")

/-- The two `range` loops of `CreateMachine` filling a fresh `mergedOpts`. -/
def mergeOpts (globalDriverOpts : GoMap) (driverOpts : Table) : Table :=
  let mergedOpts : Table := ∅
  let mergedOpts := rangeInto (GoMap.entries globalDriverOpts) mergedOpts
  rangeInto driverOpts.entries mergedOpts

/-- The struct literal `CreateMachine` passes to the backend; building it calls
`generateMachineName`. -/
def createMachineOpts (d : DockerMachine) (driverOpts : Table) : CreateMachineOpts :=
  { Name := (generateMachineName d).1
    DriverName := d.driverName
    Params := mergeOpts d.globalDriverOpts driverOpts
    RegistryMirror := d.dockerHubMirror }

/-- Method `CreateMachine`. Writing the first reserved key into a nil `driverOpts` is a
run-time fault. The write-back into the caller's own map is not part of the result. -/
def CreateMachine (env : Env) (driverOpts : GoMap) : M Machine := fun s =>
  match driverOpts with
  | none => (Outcome.abort "assignment to entry in nil map", s)
  | some c =>
    let c4 := reservedOverrides c
    let opts := createMachineOpts s.d c4
    let res := env.apiCreateMachine s.trace opts
    let s1 : St :=
      St.log { s with d := (generateMachineName s.d).2 } (Event.apiCreateMachine opts res)
    match res with
    | Except.error e => (Outcome.error e, s1)
    | Except.ok m =>
      match m.authOptions with
      | none => (Outcome.ok m, s1)
      | some sans =>
        let m1 : Machine := { m with authOptions := some (sans ++ [env.getPrivateIP m]) }
        let r := env.configureAuth s1.trace m1
        let s2 := St.log s1 (Event.configureAuth m1 r)
        match r with
        | some e => (Outcome.error e, s2)
        | none => (Outcome.ok m1, s2)

/-! ## Registry certificate bootstrap -/

/-- Statement `fmt.Printf(text)`. -/
def printf (text : String) : M Unit := fun s =>
  (Outcome.ok (), St.log s (Event.print text))

/-- Call `target.RunSSHCommand(cmd)` followed by `if err != nil { return err }`. -/
def runSSHCommand (env : Env) (target : Target) (cmd : String) : M Unit := fun s =>
  let r := env.runSSHCommand s.trace target cmd
  let s1 := St.log s (Event.runSSHCommand target cmd r)
  match r with
  | some e => (Outcome.error e, s1)
  | none => (Outcome.ok (), s1)

/-- The loop over `fileCopies`: the first failing copy ends the call. -/
def writeRemoteFiles (env : Env) (target : Target) : List (String × String) → M Unit
  | [] => M.ret ()
  | (src, dst) :: rest => fun s =>
    let r := env.writeRemoteFile s.trace target src dst
    let s1 := St.log s (Event.writeRemoteFile target src dst r)
    match r with
    | some e => (Outcome.error e, s1)
    | none => writeRemoteFiles env target rest s1

/-- The struct literal `certOpts` of `createRegistryCertificate`. -/
def registryCertOptions (env : Env) (certsPath : String) (hosts : List String) :
    CertOptions :=
  { Hosts := hosts
    CertFile := env.join certsPath "registry-cert.pem"
    KeyFile := env.join certsPath "registry-key.pem"
    CAFile := env.join certsPath "ca.pem"
    CAKeyFile := env.join certsPath "ca-key.pem"
    Org := env.getUsername ++ ".<bootstrap>"
    Bits := 2048
    SwarmMaster := false }

/-- Method `createRegistryCertificate(hosts...)`. -/
def createRegistryCertificate (env : Env) (hosts : List String) : M Unit := fun s =>
  let s0 := St.log s (Event.print "Creating registry certificate...\n")
  let certOpts := registryCertOptions env s.d.certsPath hosts
  let r := env.generateCert s0.trace certOpts
  let s1 := St.log s0 (Event.generateCert certOpts r)
  match r with
  | some e => (Outcome.error e, s1)
  | none => (Outcome.ok (), s1)

/-- The `else` branch of `uploadRegistryCertificate` after `ioutil.ReadFile` returned:
decode, parse and take the first IP address. `block.Bytes` on a nil block and
`cert.IPAddresses[0]` on an empty slice are run-time faults. -/
def registryIPFromFile (env : Env) (rd : Except Err Bytes) : Outcome String :=
  match rd with
  | Except.error errRead => Outcome.error ("failed to read registry-cert.pem: " ++ errRead)
  | Except.ok certData =>
    match env.pemDecode certData with
    | none => Outcome.abort "invalid memory address or nil pointer dereference"
    | some blockBytes =>
      match env.parseCertificate blockBytes with
      | Except.error errRead =>
        Outcome.error ("failed to parse registry certificate: " ++ errRead)
      | Except.ok cert =>
        match cert.IPAddresses with
        | [] => Outcome.abort "index out of range [0] with length 0"
        | first :: _ => Outcome.ok first

/-- The `if ... else ...` of `uploadRegistryCertificate` that fixes `registryIP`. -/
def selectRegistryIP (env : Env) (ip : String) (registryCertPath : String) : M String :=
  fun s =>
  let notExist := env.statNotExist s.trace registryCertPath
  let s1 := St.log s (Event.stat registryCertPath notExist)
  if notExist then
    match createRegistryCertificate env [ip] s1 with
    | (Outcome.ok _, s2) => (Outcome.ok ip, s2)
    | (Outcome.error errCreate, s2) => (Outcome.error errCreate, s2)
    | (Outcome.abort r, s2) => (Outcome.abort r, s2)
  else
    let rd := env.readFile s1.trace registryCertPath
    let s2 := St.log s1 (Event.readFile registryCertPath rd)
    (registryIPFromFile env rd, s2)

/-- Remote directory that receives the registry certificate pair. -/
def certsBasePath (user registryIP : String) : String :=
  "/home/" ++ user ++ "/certs/" ++ registryIP ++ ":5000"

/-- Constant `dockerCertsPath`. -/
def dockerCertsPath : String := "/etc/docker/certs.d"

/-- The map literal `fileCopies`, as the list of its source and destination pairs. -/
def fileCopies (env : Env) (certsPath user registryIP : String) : List (String × String) :=
  [ (env.join certsPath "registry-cert.pem",
      env.join (certsBasePath user registryIP) "registry-cert.pem"),
    (env.join certsPath "registry-key.pem",
      env.join (certsBasePath user registryIP) "registry-key.pem"),
    (env.join certsPath "ca-key.pem", env.join dockerCertsPath "ca-key.pem"),
    (env.join certsPath "ca.pem", env.join dockerCertsPath "ca.pem"),
    (env.join certsPath "cert.pem", env.join dockerCertsPath "cert.pem"),
    (env.join certsPath "key.pem", env.join dockerCertsPath "key.pem") ]

/-- The remote command that copies the staged certificates into `dockerCertsPath`. -/
def copyStagedCommand (user : String) : String :=
  "sudo cp -r /home/" ++ user ++ "/certs/* " ++ dockerCertsPath ++ "/"

/-- The remote command that appends the CA certificate to the trust bundle. -/
def trustCommand : String :=
  "sudo cat " ++ dockerCertsPath ++ "/ca.pem | sudo tee -a /etc/ssl/certs/ca-certificates.crt"

/-- The part of `uploadRegistryCertificate` from the `fileCopies` loop to the end. -/
def installCertificates (env : Env) (certsPath user : String) (target : Target)
    (registryIP : String) : M Unit :=
  M.andThen (writeRemoteFiles env target
      (env.rangeOrder (fileCopies env certsPath user registryIP))) fun _ =>
  M.andThen (runSSHCommand env target (copyStagedCommand user)) fun _ =>
  M.andThen (runSSHCommand env target trustCommand) fun _ =>
  runSSHCommand env target "sudo mkdir -p /var/lib/registry/"

/-- The part of `uploadRegistryCertificate` after `registryIP` is fixed. -/
def uploadSteps (env : Env) (certsPath user : String) (target : Target)
    (registryIP : String) : M Unit :=
  M.andThen (printf "Uploading registry certificate...\n") fun _ =>
  M.andThen (runSSHCommand env target ("mkdir -p " ++ certsBasePath user registryIP)) fun _ =>
  M.andThen (runSSHCommand env target ("sudo mkdir " ++ dockerCertsPath)) fun _ =>
  installCertificates env certsPath user target registryIP

/-- Method `uploadRegistryCertificate`. -/
def uploadRegistryCertificate (env : Env) (ip user : String) (target : Target) : M Unit :=
  fun s =>
  M.andThen (selectRegistryIP env ip (env.join s.d.certsPath "registry-cert.pem"))
    (fun registryIP => uploadSteps env s.d.certsPath user target registryIP) s

/-! ## Entry point and teardown -/

/-- Method `ProvisionMachine`. -/
def ProvisionMachine (env : Env) (driverOpts : GoMap) : M Machine := fun s =>
  match CreateMachine env driverOpts s with
  | (Outcome.error err, s1) => (Outcome.error ("error creating machine " ++ err), s1)
  | (Outcome.abort r, s1) => (Outcome.abort r, s1)
  | (Outcome.ok m, s1) =>
    match uploadRegistryCertificate env (env.getPrivateIP m) m.sshUsername m.Host s1 with
    | (Outcome.error err, s2) =>
      (Outcome.error ("error uploading registry certificates to " ++ m.Address ++ ": " ++ err),
        s2)
    | (Outcome.abort r, s2) => (Outcome.abort r, s2)
    | (Outcome.ok _, s2) => (Outcome.ok m, s2)

/-- Method `DeleteAll`. -/
def DeleteAll (env : Env) : M Unit := fun s =>
  let r := env.apiDeleteAll s.trace
  let s1 := St.log s (Event.apiDeleteAll r)
  match r with
  | some e => (Outcome.error e, s1)
  | none => (Outcome.ok (), s1)

/-- Method `Close`. -/
def Close (env : Env) : M Unit := fun s =>
  let r := env.apiClose s.trace
  let s1 := St.log s (Event.apiClose r)
  match r with
  | some e => (Outcome.error e, s1)
  | none => (Outcome.ok (), s1)

/-! ## Concurrent name generation

Several goroutines run `generateMachineName` on one orchestrator. Each call is two atomic
actions: the add, then the load whose value is formatted into the name. A schedule lists,
action by action, which call moves next. -/

/-- Progress of one call of `generateMachineName`. -/
inductive Call where
  | start
  | added
  | returned (name : String) (seq : Nat)
  deriving DecidableEq, Repr

/-- One atomic action of a call; a returned call does nothing more. -/
def stepCall (d : DockerMachine) : Call → Call × DockerMachine
  | Call.start => (Call.added, atomicAddUint64 d 1)
  | Call.added => (Call.returned (sprintfName d.Name (atomicLoadUint64 d)) (atomicLoadUint64 d), d)
  | Call.returned name seq => (Call.returned name seq, d)

/-- The call with index `i` performs its next atomic action. -/
def stepAt (i : Nat) (st : List Call × DockerMachine) : List Call × DockerMachine :=
  match st.1.get? i with
  | none => st
  | some c =>
    let r := stepCall st.2 c
    (st.1.set i r.1, r.2)

/-- Run a schedule from the left. -/
def runSchedule (sched : List Nat) (st : List Call × DockerMachine) :
    List Call × DockerMachine :=
  sched.foldl (fun acc i => stepAt i acc) st

/-- The sequence numbers returned so far, by call index. -/
def returnedSeqs (calls : List Call) : List Nat :=
  calls.filterMap fun c =>
    match c with
    | Call.returned _ seq => some seq
    | _ => none

/-- The names returned so far, by call index. -/
def returnedNames (calls : List Call) : List String :=
  calls.filterMap fun c =>
    match c with
    | Call.returned name _ => some name
    | _ => none

/-- A schedule is complete for `n` calls when it has `2 * n` actions and every call
index below `n` occurs exactly twice. -/
abbrev completeSchedule (n : Nat) (sched : List Nat) : Prop :=
  sched.length = 2 * n ∧ ∀ i ∈ List.range n, sched.count i = 2

/-- The state before any of `n` concurrent calls has moved. -/
def startCalls (n : Nat) (d : DockerMachine) : List Call × DockerMachine :=
  (List.replicate n Call.start, d)

/-! ## Reading traces -/

/-- The events a call appends to the history it starts from. -/
def eventsOf {α : Type} (x : M α) (s : St) : List Event :=
  (x s).2.trace.drop s.trace.length

/-- The arguments of the backend creation calls in a list of events. -/
def backendCalls (tr : List Event) : List CreateMachineOpts :=
  tr.filterMap fun e =>
    match e with
    | Event.apiCreateMachine opts _ => some opts
    | _ => none

/-- The host lists of the certificate generations in a list of events. -/
def generatedHosts (tr : List Event) : List (List String) :=
  tr.filterMap fun e =>
    match e with
    | Event.generateCert opts _ => some opts.Hosts
    | _ => none

/-- An event is remote when it is a remote command or a remote file copy. -/
def Event.isRemote : Event → Bool
  | Event.runSSHCommand _ _ _ => true
  | Event.writeRemoteFile _ _ _ _ => true
  | _ => false

/-- An event is a backend teardown call. -/
def Event.isTeardown : Event → Bool
  | Event.apiDeleteAll _ => true
  | Event.apiClose _ => true
  | _ => false

/-- A call emits `P` when it leaves the orchestrator as it was and every event it appends
to the history satisfies `P`. -/
def Emits {α : Type} (P : Event → Prop) (x : M α) : Prop :=
  ∀ s : St, ∃ evs : List Event, (x s).2 = ⟨s.d, s.trace ++ evs⟩ ∧ ∀ e ∈ evs, P e

/-- Function `NewDockerMachine`: the counter field is left at its zero value. -/
def NewDockerMachine (env : Env) (config : DockerMachineConfig) : Except Err DockerMachine :=
  let storePath := env.join env.storeBasePath config.Name
  let certsPath := env.join storePath "certs"
  match env.newBackend config.CAPath storePath with
  | some err => Except.error err
  | none =>
    Except.ok
      { driverName := config.DriverName
        Name := config.Name
        storePath := storePath
        certsPath := certsPath
        machinesCount := 0
        globalDriverOpts := config.DriverOpts
        dockerHubMirror := config.DockerHubMirror }

/-- Global options of the merge example: the map with `a` bound to 1. -/
def exampleGlobal : Table :=
  Table.set ∅ "a" (Value.num 1)

/-- Call options of the merge example: `a` bound to 2 and `b` bound to 3. -/
def exampleCall : Table :=
  Table.set (Table.set ∅ "a" (Value.num 2)) "b" (Value.num 3)

/-- A backend whose creation always fails with the given error; every other collaborator
succeeds, no registry certificate exists yet. -/
def failingBackend (e : Err) : Env :=
  { apiCreateMachine := fun _ _ => Except.error e
    configureAuth := fun _ _ => none
    apiDeleteAll := fun _ => none
    apiClose := fun _ => none
    getPrivateIP := fun m => m.Address
    statNotExist := fun _ _ => true
    readFile := fun _ _ => Except.error "no such file"
    pemDecode := fun _ => none
    parseCertificate := fun _ => Except.error "malformed certificate"
    getUsername := "installer"
    generateCert := fun _ _ => none
    runSSHCommand := fun _ _ _ => none
    writeRemoteFile := fun _ _ _ _ => none
    join := fun a b => a ++ "/" ++ b
    storeBasePath := "/home/installer/.tsuru/installs"
    newBackend := fun _ _ => none
    rangeOrder := fun l => l }

/-- The machine handed out by the example backends: it carries an auth configuration. -/
def exampleMachine (name ip : String) : Machine :=
  { Address := ip, Host := name, sshUsername := "ubuntu", authOptions := some [] }

/-- A backend that creates machines at the given address; every collaborator succeeds and
no registry certificate exists yet. -/
def workingBackend (ip : String) : Env :=
  { failingBackend "" with
    apiCreateMachine := fun _ opts => Except.ok (exampleMachine opts.Name ip) }

/-- The configuration `DefaultDockerMachineConfig`. -/
def DefaultDockerMachineConfig : DockerMachineConfig :=
  { DriverName := "virtualbox", CAPath := "", Name := "tsuru", DriverOpts := some ∅,
    DockerHubMirror := "" }

/-- The orchestrator `NewDockerMachine` builds from the default configuration, with an
empty history. -/
def freshState : St :=
  { d :=
      { driverName := "virtualbox"
        Name := "tsuru"
        storePath := "/home/installer/.tsuru/installs/tsuru"
        certsPath := "/home/installer/.tsuru/installs/tsuru/certs"
        machinesCount := 0
        globalDriverOpts := some ∅
        dockerHubMirror := "" }
    trace := [] }

/-- The merge example after `CreateMachine` has written the reserved keys. -/
def exampleMerged : Table :=
  Table.set (Table.set (Table.set (Table.set exampleCall
    "swarm-master" (Value.bool false)) "swarm-host" (Value.str ""))
    "engine-install-url" (Value.str "")) "swarm-discovery" (Value.str "")

/-- Call options that ask for clustering through all four reserved keys. -/
def conflictingCall : Table :=
  Table.set (Table.set (Table.set (Table.set (Table.set ∅
    "swarm-master" (Value.bool true)) "swarm-host" (Value.str "tcp://0.0.0.0:3376"))
    "engine-install-url" (Value.str "https://get.docker.com"))
    "swarm-discovery" (Value.str "token://abc")) "memory" (Value.num 2048)

/-- Global options that ask for clustering as well. -/
def conflictingGlobal : Table :=
  Table.set (Table.set ∅ "swarm-master" (Value.bool true)) "swarm-discovery"
    (Value.str "token://global")

/-- The state of the merge example: global options `exampleGlobal`. -/
def exampleState (g : GoMap) : St :=
  { freshState with d := { freshState.d with globalDriverOpts := g } }

/-- A backend that creates machines at the given address but whose `ConfigureAuth` fails
with the given error. -/
def authFailingBackend (ip : String) (e : Err) : Env :=
  { workingBackend ip with configureAuth := fun _ _ => some e }

/-- An installation whose `registry-cert.pem` exists and holds a certificate with the
given IP addresses; machines are created at `ip`. -/
def reuseEnv (ip : String) (certIPs : List String) : Env :=
  { workingBackend ip with
    statNotExist := fun _ _ => false
    readFile := fun _ _ => Except.ok [45, 45, 45, 45, 45, 66, 69, 71, 73, 78]
    pemDecode := fun _ => some [48, 130]
    parseCertificate := fun _ => Except.ok { IPAddresses := certIPs } }

/-- An installation whose `registry-cert.pem` exists but holds no PEM block. -/
def garbageCertEnv (ip : String) : Env :=
  { workingBackend ip with
    statNotExist := fun _ _ => false
    readFile := fun _ _ => Except.ok [104, 101, 108, 108, 111]
    pemDecode := fun _ => none }

/-- An installation whose `registry-cert.pem` holds a PEM block that is not a
certificate. -/
def malformedCertEnv (ip : String) : Env :=
  { workingBackend ip with
    statNotExist := fun _ _ => false
    readFile := fun _ _ => Except.ok [45, 45, 45, 45, 45, 66, 69, 71, 73, 78]
    pemDecode := fun _ => some [0]
    parseCertificate := fun _ => Except.error "asn1: structure error" }

/-- A target on which creating `/etc/docker/certs.d` fails; no registry certificate
exists yet. -/
def certsDirFailEnv (ip : String) : Env :=
  { workingBackend ip with
    runSSHCommand := fun _ _ cmd =>
      if cmd = "sudo mkdir /etc/docker/certs.d" then some "exit status 1" else none }

/-- A target on which every remote command fails; no registry certificate exists yet. -/
def sshFailEnv (ip : String) (e : Err) : Env :=
  { workingBackend ip with runSSHCommand := fun _ _ _ => some e }

/-- An event of the bootstrap before `registryIP` is fixed: a file-system query, a print
or a certificate generation. -/
def localEvent (e : Event) : Prop :=
  (∃ path b, e = Event.stat path b) ∨ (∃ text, e = Event.print text) ∨
    (∃ opts r, e = Event.generateCert opts r) ∨ ∃ path r, e = Event.readFile path r

/-- An event of the bootstrap after `registryIP` is fixed: a print or a remote action on
the target. -/
def uploadEvent (target : Target) (e : Event) : Prop :=
  (∃ text, e = Event.print text) ∨ (∃ cmd r, e = Event.runSSHCommand target cmd r) ∨
    ∃ src dst r, e = Event.writeRemoteFile target src dst r

/-! ## Lemmas on maps -/

theorem lookup_set (m : Table) (k : String) (v : Value) (k1 : String) :
    (Table.set m k v).lookup k1 = if k1 = k then some v else m.lookup k1 := by
  unfold Table.set
  by_cases h : k1 = k
  · subst h
    simp
  · simp [h, AList.lookup_insert_ne h]

theorem lookup_rangeInto (l : List (Sigma fun _ : String => Value)) (hl : l.NodupKeys)
    (dst : Table) (k : String) :
    (rangeInto l dst).lookup k =
      match l.dlookup k with
      | some v => some v
      | none => dst.lookup k := by
  induction l generalizing dst with
  | nil => simp [rangeInto]
  | cons e t ih =>
    obtain ⟨a, b⟩ := e
    have hnd := List.nodupKeys_cons.mp hl
    have step : rangeInto (⟨a, b⟩ :: t) dst = rangeInto t (Table.set dst a b) := by
      simp [rangeInto]
    rw [step, ih hnd.2, lookup_set]
    by_cases hk : k = a
    · subst hk
      have hnone : List.dlookup k t = none := List.dlookup_eq_none.mpr hnd.1
      simp [hnone]
    · have hne : k ≠ (⟨a, b⟩ : Sigma fun _ : String => Value).1 := hk
      simp [hk, List.dlookup_cons_ne t _ hne]

/-- The order in which `range` visits a map does not change what the loop stores. -/
theorem lookup_rangeInto_perm (t : Table) (l : List (Sigma fun _ : String => Value))
    (hp : l.Perm t.entries) (dst : Table) (k : String) :
    (rangeInto l dst).lookup k = (rangeInto t.entries dst).lookup k := by
  have hl : l.NodupKeys := (List.perm_nodupKeys hp).mpr t.nodupKeys
  rw [lookup_rangeInto l hl, lookup_rangeInto t.entries t.nodupKeys,
    List.perm_dlookup k hl t.nodupKeys hp]

theorem lookup_mergeOpts (g : GoMap) (c : Table) (k : String) :
    (mergeOpts g c).lookup k =
      match c.lookup k with
      | some v => some v
      | none => GoMap.lookup g k := by
  unfold mergeOpts
  simp only
  rw [lookup_rangeInto _ c.nodupKeys]
  have hc : List.dlookup k c.entries = c.lookup k := rfl
  rw [hc]
  cases hck : c.lookup k with
  | some v => rfl
  | none =>
    simp only
    cases g with
    | none => simp [GoMap.entries, GoMap.lookup, rangeInto]
    | some t =>
      have ht : List.dlookup k t.entries = t.lookup k := rfl
      simp only [GoMap.entries, GoMap.lookup]
      rw [lookup_rangeInto _ t.nodupKeys, ht]
      cases t.lookup k <;> simp

theorem lookup_reservedOverrides (c : Table) (k : String) :
    (reservedOverrides c).lookup k =
      if k = "swarm-discovery" then some (Value.str "")
      else if k = "engine-install-url" then some (Value.str "")
      else if k = "swarm-host" then some (Value.str "")
      else if k = "swarm-master" then some (Value.bool false)
      else c.lookup k := by
  simp only [reservedOverrides, lookup_set]

/-! ## Lemmas on `CreateMachine` -/

theorem CreateMachine_of_error (env : Env) (s : St) (c : Table) (e : Err)
    (h : env.apiCreateMachine s.trace (createMachineOpts s.d (reservedOverrides c)) =
      Except.error e) :
    CreateMachine env (some c) s =
      (Outcome.error e,
        ⟨(generateMachineName s.d).2,
          s.trace ++ [Event.apiCreateMachine (createMachineOpts s.d (reservedOverrides c))
            (Except.error e)]⟩) := by
  simp only [CreateMachine, h, St.log]

theorem CreateMachine_of_noAuth (env : Env) (s : St) (c : Table) (m : Machine)
    (h : env.apiCreateMachine s.trace (createMachineOpts s.d (reservedOverrides c)) =
      Except.ok m)
    (hauth : m.authOptions = none) :
    CreateMachine env (some c) s =
      (Outcome.ok m,
        ⟨(generateMachineName s.d).2,
          s.trace ++ [Event.apiCreateMachine (createMachineOpts s.d (reservedOverrides c))
            (Except.ok m)]⟩) := by
  simp only [CreateMachine, h, hauth, St.log]

theorem CreateMachine_of_auth (env : Env) (s : St) (c : Table) (m : Machine)
    (sans : List String)
    (h : env.apiCreateMachine s.trace (createMachineOpts s.d (reservedOverrides c)) =
      Except.ok m)
    (hauth : m.authOptions = some sans) :
    CreateMachine env (some c) s =
      ((match env.configureAuth
            (s.trace ++ [Event.apiCreateMachine
              (createMachineOpts s.d (reservedOverrides c)) (Except.ok m)])
            { m with authOptions := some (sans ++ [env.getPrivateIP m]) } with
        | some e => Outcome.error e
        | none => Outcome.ok { m with authOptions := some (sans ++ [env.getPrivateIP m]) }),
        ⟨(generateMachineName s.d).2,
          s.trace ++ [Event.apiCreateMachine (createMachineOpts s.d (reservedOverrides c))
              (Except.ok m),
            Event.configureAuth { m with authOptions := some (sans ++ [env.getPrivateIP m]) }
              (env.configureAuth
                (s.trace ++ [Event.apiCreateMachine
                  (createMachineOpts s.d (reservedOverrides c)) (Except.ok m)])
                { m with authOptions := some (sans ++ [env.getPrivateIP m]) })]⟩) := by
  simp only [CreateMachine, h, hauth, St.log]
  split <;> simp

/-- The three ways a call of `CreateMachine` on an allocated map can go. -/
theorem CreateMachine_cases (env : Env) (s : St) (c : Table) :
    (∃ e, env.apiCreateMachine s.trace (createMachineOpts s.d (reservedOverrides c)) =
        Except.error e) ∨
    (∃ m, env.apiCreateMachine s.trace (createMachineOpts s.d (reservedOverrides c)) =
        Except.ok m ∧ m.authOptions = none) ∨
    (∃ m sans, env.apiCreateMachine s.trace (createMachineOpts s.d (reservedOverrides c)) =
        Except.ok m ∧ m.authOptions = some sans) := by
  cases h : env.apiCreateMachine s.trace (createMachineOpts s.d (reservedOverrides c)) with
  | error e => exact Or.inl ⟨e, rfl⟩
  | ok m =>
    cases hauth : m.authOptions with
    | none => exact Or.inr (Or.inl ⟨m, rfl, hauth⟩)
    | some sans => exact Or.inr (Or.inr ⟨m, sans, rfl, hauth⟩)

/-- The argument `CreateMachine` builds for the backend from an allocated call map. -/
theorem backendCalls_CreateMachine (env : Env) (s : St) (c : Table) :
    backendCalls (eventsOf (CreateMachine env (some c)) s) =
      [createMachineOpts s.d (reservedOverrides c)] := by
  rcases CreateMachine_cases env s c with ⟨e, h⟩ | ⟨m, h, ha⟩ | ⟨m, sans, h, ha⟩
  · simp [eventsOf, CreateMachine_of_error env s c e h, backendCalls]
  · simp [eventsOf, CreateMachine_of_noAuth env s c m h ha, backendCalls]
  · simp [eventsOf, CreateMachine_of_auth env s c m sans h ha, backendCalls]

theorem CreateMachine_nil (env : Env) (s : St) :
    CreateMachine env none s = (Outcome.abort "assignment to entry in nil map", s) := rfl

/-- The orchestrator of `freshState` is the one `NewDockerMachine` builds from the default
configuration. -/
theorem NewDockerMachine_default :
    NewDockerMachine (workingBackend "10.0.0.5") DefaultDockerMachineConfig =
      Except.ok freshState.d := rfl

theorem generateNames_names (n : Nat) (d : DockerMachine) :
    (generateNames n d).1 =
      (List.range n).map fun i => sprintfName d.Name ((d.machinesCount + (i + 1)) % 2 ^ 64) := by
  induction n generalizing d with
  | zero => simp [generateNames]
  | succ n ih =>
    have hname : (generateMachineName d).2.Name = d.Name := rfl
    have hcount : (generateMachineName d).2.machinesCount = (d.machinesCount + 1) % 2 ^ 64 := rfl
    have hfirst : (generateMachineName d).1 =
        sprintfName d.Name ((d.machinesCount + 1) % 2 ^ 64) := rfl
    simp only [generateNames, ih, hname, hcount, hfirst, List.range_succ_eq_map, List.map_cons,
      List.map_map]
    congr 1
    apply List.map_congr_left
    intro i _
    simp only [Function.comp, Nat.succ_eq_add_one]
    congr 1
    omega

/-! ## Lemmas on sequencing and on the events of the bootstrap -/

theorem andThen_ok {α β : Type} (x : M α) (f : α → M β) (s s1 : St) (a : α)
    (h : x s = (Outcome.ok a, s1)) : M.andThen x f s = f a s1 := by
  simp [M.andThen, h]

theorem andThen_error {α β : Type} (x : M α) (f : α → M β) (s s1 : St) (e : Err)
    (h : x s = (Outcome.error e, s1)) : M.andThen x f s = (Outcome.error e, s1) := by
  simp [M.andThen, h]

theorem andThen_abort {α β : Type} (x : M α) (f : α → M β) (s s1 : St) (r : String)
    (h : x s = (Outcome.abort r, s1)) : M.andThen x f s = (Outcome.abort r, s1) := by
  simp [M.andThen, h]

theorem eventsOf_of_snd {α : Type} (x : M α) (s : St) (d : DockerMachine)
    (evs : List Event) (h : (x s).2 = ⟨d, s.trace ++ evs⟩) : eventsOf x s = evs := by
  simp [eventsOf, h]

theorem Emits_andThen {α β : Type} {P : Event → Prop} {x : M α} {f : α → M β}
    (hx : Emits P x) (hf : ∀ a, Emits P (f a)) : Emits P (M.andThen x f) := by
  intro s
  obtain ⟨evs, hs, hP⟩ := hx s
  rcases hxs : x s with ⟨o, s1⟩
  rw [hxs] at hs
  simp only at hs
  cases o with
  | ok a =>
    obtain ⟨evs2, hs2, hP2⟩ := hf a s1
    refine ⟨evs ++ evs2, ?_, ?_⟩
    · rw [andThen_ok x f s s1 a hxs, hs2, hs]
      simp
    · intro e he
      rcases List.mem_append.mp he with h1 | h2
      · exact hP e h1
      · exact hP2 e h2
  | error e =>
    exact ⟨evs, by rw [andThen_error x f s s1 e hxs]; exact hs, hP⟩
  | abort r =>
    exact ⟨evs, by rw [andThen_abort x f s s1 r hxs]; exact hs, hP⟩

theorem Emits_runSSHCommand {P : Event → Prop} (env : Env) (target : Target) (cmd : String)
    (h : ∀ r, P (Event.runSSHCommand target cmd r)) :
    Emits P (runSSHCommand env target cmd) := by
  intro s
  refine ⟨[Event.runSSHCommand target cmd (env.runSSHCommand s.trace target cmd)], ?_, ?_⟩
  · unfold runSSHCommand
    simp only
    split <;> rfl
  · intro e he
    rw [List.mem_singleton] at he
    rw [he]
    exact h _

theorem Emits_writeRemoteFiles {P : Event → Prop} (env : Env) (target : Target)
    (h : ∀ src dst r, P (Event.writeRemoteFile target src dst r))
    (l : List (String × String)) : Emits P (writeRemoteFiles env target l) := by
  induction l with
  | nil =>
    intro s
    exact ⟨[], by simp [writeRemoteFiles, M.ret], by simp⟩
  | cons hd tl ih =>
    obtain ⟨src, dst⟩ := hd
    intro s
    cases hr : env.writeRemoteFile s.trace target src dst with
    | some e =>
      refine ⟨[Event.writeRemoteFile target src dst (some e)], ?_, ?_⟩
      · simp [writeRemoteFiles, hr, St.log]
      · intro ev hev
        rw [List.mem_singleton] at hev
        rw [hev]
        exact h _ _ _
    | none =>
      obtain ⟨evs, hs, hP⟩ := ih (St.log s (Event.writeRemoteFile target src dst none))
      refine ⟨Event.writeRemoteFile target src dst none :: evs, ?_, ?_⟩
      · simp only [writeRemoteFiles, hr]
        rw [hs]
        simp [St.log]
      · intro ev hev
        rcases List.mem_cons.mp hev with h1 | h2
        · rw [h1]
          exact h _ _ _
        · exact hP ev h2

theorem Emits_installCertificates {P : Event → Prop} (env : Env) (certsPath user : String)
    (target : Target) (registryIP : String)
    (hcopy : ∀ src dst r, P (Event.writeRemoteFile target src dst r))
    (h3 : ∀ r, P (Event.runSSHCommand target (copyStagedCommand user) r))
    (h4 : ∀ r, P (Event.runSSHCommand target trustCommand r))
    (h5 : ∀ r, P (Event.runSSHCommand target "sudo mkdir -p /var/lib/registry/" r)) :
    Emits P (installCertificates env certsPath user target registryIP) := by
  unfold installCertificates
  refine Emits_andThen (Emits_writeRemoteFiles env target hcopy _) fun _ => ?_
  refine Emits_andThen (Emits_runSSHCommand env target _ h3) fun _ => ?_
  refine Emits_andThen (Emits_runSSHCommand env target _ h4) fun _ => ?_
  exact Emits_runSSHCommand env target _ h5

theorem mkdirHome_ne_mkdirCerts (x : String) :
    "mkdir -p " ++ x ≠ "sudo mkdir " ++ dockerCertsPath := by
  intro h
  have h2 := congrArg String.data h
  simp [String.data_append, dockerCertsPath] at h2

theorem copyStaged_ne_mkdirCerts (user : String) :
    copyStagedCommand user ≠ "sudo mkdir " ++ dockerCertsPath := by
  intro h
  have h2 := congrArg String.data h
  simp [copyStagedCommand, String.data_append, dockerCertsPath] at h2

theorem Emits_uploadSteps (env : Env) (certsPath user : String) (target : Target)
    (registryIP : String) :
    Emits (uploadEvent target) (uploadSteps env certsPath user target registryIP) := by
  have hssh : ∀ cmd r, uploadEvent target (Event.runSSHCommand target cmd r) :=
    fun cmd r => Or.inr (Or.inl ⟨cmd, r, rfl⟩)
  unfold uploadSteps
  refine Emits_andThen ?_ fun _ => ?_
  · intro s
    exact ⟨[Event.print "Uploading registry certificate...\n"], rfl, by
      intro e he
      rw [List.mem_singleton] at he
      exact Or.inl ⟨_, he⟩⟩
  refine Emits_andThen (Emits_runSSHCommand env target _ (hssh _)) fun _ => ?_
  refine Emits_andThen (Emits_runSSHCommand env target _ (hssh _)) fun _ => ?_
  exact Emits_installCertificates env certsPath user target registryIP
    (fun src dst r => Or.inr (Or.inr ⟨src, dst, r, rfl⟩)) (hssh _) (hssh _) (hssh _)

/-- The run of `uploadSteps`, by the answers to its first two remote commands. -/
theorem uploadSteps_run (env : Env) (certsPath user : String) (target : Target)
    (registryIP : String) (s : St) :
    (∃ e1, uploadSteps env certsPath user target registryIP s =
      (Outcome.error e1, ⟨s.d, s.trace ++
        [Event.print "Uploading registry certificate...\n",
         Event.runSSHCommand target ("mkdir -p " ++ certsBasePath user registryIP)
           (some e1)]⟩)) ∨
    (∃ e2, uploadSteps env certsPath user target registryIP s =
      (Outcome.error e2, ⟨s.d, s.trace ++
        [Event.print "Uploading registry certificate...\n",
         Event.runSSHCommand target ("mkdir -p " ++ certsBasePath user registryIP) none,
         Event.runSSHCommand target ("sudo mkdir " ++ dockerCertsPath) (some e2)]⟩)) ∨
    (∃ rest, (uploadSteps env certsPath user target registryIP s).2 =
      ⟨s.d, s.trace ++
        (Event.print "Uploading registry certificate...\n" ::
         Event.runSSHCommand target ("mkdir -p " ++ certsBasePath user registryIP) none ::
         Event.runSSHCommand target ("sudo mkdir " ++ dockerCertsPath) none :: rest)⟩ ∧
      (∀ e ∈ rest, ∀ r, e ≠ Event.runSSHCommand target ("sudo mkdir " ++ dockerCertsPath) r) ∧
      (∀ e ∈ rest, uploadEvent target e)) := by
  have hp : printf "Uploading registry certificate...\n" s =
      (Outcome.ok (), St.log s (Event.print "Uploading registry certificate...\n")) := rfl
  unfold uploadSteps
  rw [andThen_ok _ _ _ _ _ hp]
  cases h1 : env.runSSHCommand (s.trace ++ [Event.print "Uploading registry certificate...\n"])
      target ("mkdir -p " ++ certsBasePath user registryIP) with
  | some e1 =>
    left
    refine ⟨e1, ?_⟩
    simp [M.andThen, runSSHCommand, St.log, h1]
  | none =>
    right
    cases h2 : env.runSSHCommand
        (s.trace ++ [Event.print "Uploading registry certificate...\n",
          Event.runSSHCommand target ("mkdir -p " ++ certsBasePath user registryIP) none])
        target ("sudo mkdir " ++ dockerCertsPath) with
    | some e2 =>
      left
      refine ⟨e2, ?_⟩
      simp [M.andThen, runSSHCommand, St.log, h1, h2]
    | none =>
      right
      have hP : Emits (fun e => (∀ r, e ≠ Event.runSSHCommand target
          ("sudo mkdir " ++ dockerCertsPath) r) ∧ uploadEvent target e)
          (installCertificates env certsPath user target registryIP) := by
        apply Emits_installCertificates
        · intro src dst r
          exact ⟨fun r0 h => Event.noConfusion h, Or.inr (Or.inr ⟨src, dst, r, rfl⟩)⟩
        · intro r
          refine ⟨fun r0 h => ?_, Or.inr (Or.inl ⟨_, r, rfl⟩)⟩
          injection h with _ hc _
          exact copyStaged_ne_mkdirCerts user hc
        · intro r
          refine ⟨fun r0 h => ?_, Or.inr (Or.inl ⟨_, r, rfl⟩)⟩
          injection h with _ hc _
          revert hc
          decide
        · intro r
          refine ⟨fun r0 h => ?_, Or.inr (Or.inl ⟨_, r, rfl⟩)⟩
          injection h with _ hc _
          revert hc
          decide
      obtain ⟨rest, hrest, hPrest⟩ := hP ⟨s.d, s.trace ++
        [Event.print "Uploading registry certificate...\n",
         Event.runSSHCommand target ("mkdir -p " ++ certsBasePath user registryIP) none,
         Event.runSSHCommand target ("sudo mkdir " ++ dockerCertsPath) none]⟩
      refine ⟨rest, ?_, fun e he => (hPrest e he).1, fun e he => (hPrest e he).2⟩
      simp [M.andThen, runSSHCommand, St.log, h1, h2]
      rw [hrest]
      simp

theorem selectRegistryIP_absent (env : Env) (ip path : String) (s : St)
    (h : env.statNotExist s.trace path = true) :
    selectRegistryIP env ip path s =
      ((match env.generateCert
            (s.trace ++ [Event.stat path true,
              Event.print "Creating registry certificate...\n"])
            (registryCertOptions env s.d.certsPath [ip]) with
        | some e => Outcome.error e
        | none => Outcome.ok ip),
        ⟨s.d, s.trace ++ [Event.stat path true,
          Event.print "Creating registry certificate...\n",
          Event.generateCert (registryCertOptions env s.d.certsPath [ip])
            (env.generateCert
              (s.trace ++ [Event.stat path true,
                Event.print "Creating registry certificate...\n"])
              (registryCertOptions env s.d.certsPath [ip]))]⟩) := by
  cases hg : env.generateCert
      (s.trace ++ [Event.stat path true, Event.print "Creating registry certificate...\n"])
      (registryCertOptions env s.d.certsPath [ip]) with
  | some e => simp [selectRegistryIP, h, createRegistryCertificate, St.log, hg]
  | none => simp [selectRegistryIP, h, createRegistryCertificate, St.log, hg]

theorem selectRegistryIP_present (env : Env) (ip path : String) (s : St)
    (h : env.statNotExist s.trace path = false) :
    selectRegistryIP env ip path s =
      (registryIPFromFile env (env.readFile (s.trace ++ [Event.stat path false]) path),
        ⟨s.d, s.trace ++ [Event.stat path false,
          Event.readFile path
            (env.readFile (s.trace ++ [Event.stat path false]) path)]⟩) := by
  simp [selectRegistryIP, h, St.log]

theorem Emits_selectRegistryIP (env : Env) (ip path : String) :
    Emits localEvent (selectRegistryIP env ip path) := by
  intro s
  cases h : env.statNotExist s.trace path with
  | true =>
    refine ⟨_, by rw [selectRegistryIP_absent env ip path s h], ?_⟩
    intro e he
    simp only [List.mem_cons, List.mem_singleton, List.not_mem_nil, or_false] at he
    rcases he with h1 | h1 | h1
    · exact Or.inl ⟨_, _, h1⟩
    · exact Or.inr (Or.inl ⟨_, h1⟩)
    · exact Or.inr (Or.inr (Or.inl ⟨_, _, h1⟩))
  | false =>
    refine ⟨_, by rw [selectRegistryIP_present env ip path s h], ?_⟩
    intro e he
    simp only [List.mem_cons, List.mem_singleton, List.not_mem_nil, or_false] at he
    rcases he with h1 | h1
    · exact Or.inl ⟨_, _, h1⟩
    · exact Or.inr (Or.inr (Or.inr ⟨_, _, h1⟩))

theorem localEvent_not_remote {e : Event} (h : localEvent e) : e.isRemote = false := by
  rcases h with ⟨_, _, h⟩ | ⟨_, h⟩ | ⟨_, _, h⟩ | ⟨_, _, h⟩ <;> rw [h] <;> rfl

theorem filter_remote_local (evs : List Event) (h : ∀ e ∈ evs, localEvent e) :
    evs.filter Event.isRemote = [] := by
  rw [List.filter_eq_nil_iff]
  intro e he
  simp [localEvent_not_remote (h e he)]

/-- How `uploadRegistryCertificate` continues once `selectRegistryIP` has run. -/
theorem uploadRegistryCertificate_split (env : Env) (ip user : String) (target : Target)
    (s : St) :
    ∃ (o : Outcome String) (evs : List Event),
      selectRegistryIP env ip (env.join s.d.certsPath "registry-cert.pem") s =
        (o, ⟨s.d, s.trace ++ evs⟩) ∧
      (∀ e ∈ evs, localEvent e) ∧
      uploadRegistryCertificate env ip user target s =
        match o with
        | Outcome.ok registryIP =>
          uploadSteps env s.d.certsPath user target registryIP ⟨s.d, s.trace ++ evs⟩
        | Outcome.error e => (Outcome.error e, ⟨s.d, s.trace ++ evs⟩)
        | Outcome.abort r => (Outcome.abort r, ⟨s.d, s.trace ++ evs⟩) := by
  obtain ⟨evs, hs, hP⟩ :=
    Emits_selectRegistryIP env ip (env.join s.d.certsPath "registry-cert.pem") s
  rcases hsel : selectRegistryIP env ip (env.join s.d.certsPath "registry-cert.pem") s with
    ⟨o, s1⟩
  rw [hsel] at hs
  simp only at hs
  subst hs
  refine ⟨o, evs, rfl, hP, ?_⟩
  unfold uploadRegistryCertificate
  cases o with
  | ok a => exact andThen_ok _ _ _ _ _ hsel
  | error e => exact andThen_error _ _ _ _ _ hsel
  | abort r => exact andThen_abort _ _ _ _ _ hsel

theorem localEvent_not_ssh {target : Target} {cmd : String} {r : Option Err}
    (h : localEvent (Event.runSSHCommand target cmd r)) : False := by
  rcases h with ⟨_, _, h⟩ | ⟨_, h⟩ | ⟨_, _, h⟩ | ⟨_, _, h⟩ <;> cases h

theorem eventsOf_append {α : Type} (x : M α) (s : St) (d : DockerMachine)
    (evs more : List Event) (h : (x s).2 = ⟨d, s.trace ++ evs ++ more⟩) :
    eventsOf x s = evs ++ more := by
  apply eventsOf_of_snd x s d
  rw [h, List.append_assoc]

theorem mkdirCerts_literal : "sudo mkdir " ++ dockerCertsPath = "sudo mkdir /etc/docker/certs.d" := by
  decide

theorem certsBasePath_literal (user registryIP : String) :
    "mkdir -p " ++ certsBasePath user registryIP =
      "mkdir -p /home/" ++ user ++ "/certs/" ++ registryIP ++ ":5000" := by
  simp only [certsBasePath, String.append_assoc]
  rfl

theorem generatedHosts_uploadEvents (target : Target) (evs : List Event)
    (h : ∀ e ∈ evs, uploadEvent target e) : generatedHosts evs = [] := by
  induction evs with
  | nil => rfl
  | cons e t ih =>
    have ht : generatedHosts t = [] := ih fun x hx => h x (List.mem_cons_of_mem _ hx)
    rcases h e (List.mem_cons_self _ _) with ⟨_, he⟩ | ⟨_, _, he⟩ | ⟨_, _, _, he⟩ <;>
      · rw [he]
        simpa [generatedHosts] using ht

theorem generatedHosts_append (a b : List Event) :
    generatedHosts (a ++ b) = generatedHosts a ++ generatedHosts b := by
  simp [generatedHosts, List.filterMap_append]

/-- The first two events of `uploadSteps`: the print and the creation of the
per-registry directory. -/
theorem uploadSteps_first (env : Env) (certsPath user : String) (target : Target)
    (registryIP : String) (s : St) :
    ∃ (r : Option Err) (more : List Event),
      (uploadSteps env certsPath user target registryIP s).2 =
        ⟨s.d, s.trace ++
          (Event.print "Uploading registry certificate...\n" ::
           Event.runSSHCommand target ("mkdir -p " ++ certsBasePath user registryIP) r ::
           more)⟩ ∧
      ∀ e ∈ more, uploadEvent target e := by
  rcases uploadSteps_run env certsPath user target registryIP s with
    ⟨e1, h1⟩ | ⟨e2, h2⟩ | ⟨rest, h3, _, hrest⟩
  · exact ⟨some e1, [], by rw [h1], by simp⟩
  · refine ⟨none, [Event.runSSHCommand target ("sudo mkdir " ++ dockerCertsPath) (some e2)],
      by rw [h2], ?_⟩
    intro e he
    rw [List.mem_singleton] at he
    exact Or.inr (Or.inl ⟨_, _, he⟩)
  · refine ⟨none, Event.runSSHCommand target ("sudo mkdir " ++ dockerCertsPath) none :: rest,
      h3, ?_⟩
    intro e he
    rcases List.mem_cons.mp he with h | h
    · exact Or.inr (Or.inl ⟨_, _, h⟩)
    · exact hrest e h

/-- What the run of `uploadRegistryCertificate` looks like once `selectRegistryIP` has
returned `registryIP` after the events `evs`. -/
theorem uploadRegistryCertificate_after_select (env : Env) (ip user : String)
    (target : Target) (s : St) (registryIP : String) (evs : List Event)
    (hsel : selectRegistryIP env ip (env.join s.d.certsPath "registry-cert.pem") s =
      (Outcome.ok registryIP, ⟨s.d, s.trace ++ evs⟩))
    (hloc : ∀ e ∈ evs, localEvent e) :
    ∃ r : Option Err,
      ((eventsOf (uploadRegistryCertificate env ip user target) s).filter
          Event.isRemote).head? =
        some (Event.runSSHCommand target
          ("mkdir -p /home/" ++ user ++ "/certs/" ++ registryIP ++ ":5000") r) ∧
      generatedHosts (eventsOf (uploadRegistryCertificate env ip user target) s) =
        generatedHosts evs := by
  have hup : uploadRegistryCertificate env ip user target s =
      uploadSteps env s.d.certsPath user target registryIP ⟨s.d, s.trace ++ evs⟩ := by
    unfold uploadRegistryCertificate
    exact andThen_ok _ _ _ _ _ hsel
  obtain ⟨r, more, hrun, hmore⟩ :=
    uploadSteps_first env s.d.certsPath user target registryIP ⟨s.d, s.trace ++ evs⟩
  rw [← hup] at hrun
  have hev := eventsOf_append _ s s.d evs _ hrun
  refine ⟨r, ?_, ?_⟩
  · rw [hev, List.filter_append, filter_remote_local evs hloc, ← certsBasePath_literal]
    rfl
  · have hgen : generatedHosts (Event.print "Uploading registry certificate...\n" ::
        Event.runSSHCommand target ("mkdir -p " ++ certsBasePath user registryIP) r ::
        more) = [] := by
      apply generatedHosts_uploadEvents target
      intro e he
      rcases List.mem_cons.mp he with h | h
      · exact Or.inl ⟨_, h⟩
      · rcases List.mem_cons.mp h with h | h
        · exact Or.inr (Or.inl ⟨_, _, h⟩)
        · exact hmore e h
    rw [hev, generatedHosts_append, hgen, List.append_nil]

theorem Emits_uploadRegistryCertificate (env : Env) (ip user : String) (target : Target) :
    Emits (fun e => localEvent e ∨ uploadEvent target e)
      (uploadRegistryCertificate env ip user target) := by
  intro s
  have hsel : Emits (fun e => localEvent e ∨ uploadEvent target e)
      (selectRegistryIP env ip (env.join s.d.certsPath "registry-cert.pem")) := by
    intro s0
    obtain ⟨evs, h1, h2⟩ :=
      Emits_selectRegistryIP env ip (env.join s.d.certsPath "registry-cert.pem") s0
    exact ⟨evs, h1, fun e he => Or.inl (h2 e he)⟩
  have hsteps : ∀ registryIP, Emits (fun e => localEvent e ∨ uploadEvent target e)
      (uploadSteps env s.d.certsPath user target registryIP) := by
    intro registryIP s0
    obtain ⟨evs, h1, h2⟩ := Emits_uploadSteps env s.d.certsPath user target registryIP s0
    exact ⟨evs, h1, fun e he => Or.inr (h2 e he)⟩
  exact Emits_andThen hsel hsteps s

theorem bootstrap_not_teardown {target : Target} {e : Event}
    (h : localEvent e ∨ uploadEvent target e) : e.isTeardown = false := by
  rcases h with (⟨_, _, h⟩ | ⟨_, h⟩ | ⟨_, _, h⟩ | ⟨_, _, h⟩) |
    (⟨_, h⟩ | ⟨_, _, h⟩ | ⟨_, _, _, h⟩) <;> rw [h] <;> rfl

/-- The events of `CreateMachine` are backend creation and auth configuration calls. -/
theorem CreateMachine_trace (env : Env) (driverOpts : GoMap) (s : St) :
    ∃ evs : List Event, (CreateMachine env driverOpts s).2.trace = s.trace ++ evs ∧
      ∀ e ∈ evs, e.isTeardown = false := by
  cases driverOpts with
  | none => exact ⟨[], by simp [CreateMachine_nil], by simp⟩
  | some c =>
    rcases CreateMachine_cases env s c with ⟨e, h⟩ | ⟨m, h, ha⟩ | ⟨m, sans, h, ha⟩
    · refine ⟨_, by rw [CreateMachine_of_error env s c e h], ?_⟩
      intro ev hev
      rw [List.mem_singleton] at hev
      rw [hev]
      rfl
    · refine ⟨_, by rw [CreateMachine_of_noAuth env s c m h ha], ?_⟩
      intro ev hev
      rw [List.mem_singleton] at hev
      rw [hev]
      rfl
    · refine ⟨_, by rw [CreateMachine_of_auth env s c m sans h ha], ?_⟩
      intro ev hev
      simp only [List.mem_cons, List.mem_singleton, List.not_mem_nil, or_false] at hev
      rcases hev with hev | hev <;> rw [hev] <;> rfl

/-! ## Name generation: C1 -/

/-- C1 (amended): a call of `generateMachineName` made while the counter is below
`2 ^ 64 - 1` increases the counter by exactly one and returns the orchestrator name, a dash
and the new counter value; on an orchestrator whose counter is zero, as `NewDockerMachine`
builds it, the `n`-th call, for `1 ≤ n < 2 ^ 64`, returns the name, a dash and `n`; and
`CreateMachine` on an allocated option map advances the counter by the one step of
`generateMachineName` and hands the backend that name, whatever the backend answers. -/
theorem generateMachineName_sequence (env : Env) (d : DockerMachine) (tr : List Event)
    (c : Table) (n : Nat) (hfresh : d.machinesCount = 0) (hpos : 1 ≤ n) (hn : n < 2 ^ 64) :
    (∀ d0 : DockerMachine, d0.machinesCount + 1 < 2 ^ 64 →
        (generateMachineName d0).2.machinesCount = d0.machinesCount + 1 ∧
        (generateMachineName d0).1 = d0.Name ++ "-" ++ toString (d0.machinesCount + 1)) ∧
    (generateNames n d).1[n - 1]? = some (d.Name ++ "-" ++ toString n) ∧
    (∀ (config : DockerMachineConfig) (d0 : DockerMachine),
        NewDockerMachine env config = Except.ok d0 → d0.machinesCount = 0) ∧
    (∀ d0 : DockerMachine,
        (CreateMachine env (some c) ⟨d0, tr⟩).2.d = (generateMachineName d0).2 ∧
        (backendCalls (eventsOf (CreateMachine env (some c)) ⟨d0, tr⟩)).map
          (fun o => o.Name) = [(generateMachineName d0).1]) := by
  refine ⟨?_, ?_, ?_, ?_⟩
  · intro d0 h0
    have hmod : (d0.machinesCount + 1) % 2 ^ 64 = d0.machinesCount + 1 := Nat.mod_eq_of_lt h0
    constructor
    · show (d0.machinesCount + 1) % 2 ^ 64 = d0.machinesCount + 1
      exact hmod
    · show sprintfName d0.Name ((d0.machinesCount + 1) % 2 ^ 64) = _
      rw [hmod]
      rfl
  · rw [generateNames_names, hfresh]
    have hlt : n - 1 < n := by omega
    have hmod : (0 + (n - 1 + 1)) % 2 ^ 64 = n := by
      have : 0 + (n - 1 + 1) = n := by omega
      rw [this]
      exact Nat.mod_eq_of_lt hn
    simp only [List.getElem?_map, List.getElem?_range hlt, sprintfName]
    show some (d.Name ++ "-" ++ toString ((0 + (n - 1 + 1)) % 2 ^ 64)) = _
    rw [hmod]
  · intro config d0 h0
    unfold NewDockerMachine at h0
    simp only at h0
    split at h0
    · cases h0
    · injection h0 with h0
      rw [← h0]
  · intro d0
    constructor
    · rcases CreateMachine_cases env ⟨d0, tr⟩ c with ⟨e, h⟩ | ⟨m, h, ha⟩ | ⟨m, sans, h, ha⟩
      · rw [CreateMachine_of_error env _ c e h]
      · rw [CreateMachine_of_noAuth env _ c m h ha]
      · rw [CreateMachine_of_auth env _ c m sans h ha]
    · rw [backendCalls_CreateMachine]
      rfl

theorem generateMachineName_sequence_witness :
    freshState.d.machinesCount = 0 ∧ 1 ≤ 3 ∧ 3 < 2 ^ 64 ∧
    (generateNames 3 freshState.d).1[3 - 1]? = some (freshState.d.Name ++ "-" ++ toString 3) ∧
    (generateNames 3 freshState.d).1 = ["tsuru-1", "tsuru-2", "tsuru-3"] :=
  ⟨rfl, by decide, by decide,
    (generateMachineName_sequence (failingBackend "quota exceeded") freshState.d [] ∅ 3 rfl
      (by decide) (by decide)).2.1, by decide⟩

/-- C1 as stated fails at the top of the `uint64` range: with the counter at
`2 ^ 64 - 1` a call leaves the counter at 0 and returns `tsuru-0`, and so does call number
`2 ^ 64` on a fresh orchestrator. -/
theorem generateMachineName_wraps :
    (generateMachineName { freshState.d with machinesCount := 2 ^ 64 - 1 }).2.machinesCount = 0 ∧
    (generateMachineName { freshState.d with machinesCount := 2 ^ 64 - 1 }).1 = "tsuru-0" ∧
    (generateNames (2 ^ 64) freshState.d).1[2 ^ 64 - 1]? = some "tsuru-0" ∧
    (generateNames (2 ^ 64) freshState.d).1[2 ^ 64 - 1]? ≠
      some (freshState.d.Name ++ "-" ++ toString (2 ^ 64)) := by
  have hlt : 2 ^ 64 - 1 < 2 ^ 64 := by decide
  have hnth : (generateNames (2 ^ 64) freshState.d).1[2 ^ 64 - 1]? = some "tsuru-0" := by
    rw [generateNames_names]
    simp only [List.getElem?_map, List.getElem?_range hlt, Option.map_some]
    decide
  refine ⟨by decide, by decide, hnth, ?_⟩
  rw [hnth]
  decide

/-! ## Options handed to the backend: C3, C4, C5 -/

/-- C3: whatever the global options and the caller's options are, every argument that
`CreateMachine` hands to the backend binds `swarm-master` to false and `swarm-host`,
`engine-install-url` and `swarm-discovery` to the empty string; and with an allocated
caller map the backend is called exactly once. -/
theorem CreateMachine_reserved_keys (env : Env) (s : St) (driverOpts : GoMap)
    (opts : CreateMachineOpts)
    (h : opts ∈ backendCalls (eventsOf (CreateMachine env driverOpts) s)) :
    opts.Params.lookup "swarm-master" = some (Value.bool false) ∧
    opts.Params.lookup "swarm-host" = some (Value.str "") ∧
    opts.Params.lookup "engine-install-url" = some (Value.str "") ∧
    opts.Params.lookup "swarm-discovery" = some (Value.str "") ∧
    (∀ c : Table, (backendCalls (eventsOf (CreateMachine env (some c)) s)).length = 1) := by
  have hlen : ∀ c : Table,
      (backendCalls (eventsOf (CreateMachine env (some c)) s)).length = 1 := by
    intro c
    rw [backendCalls_CreateMachine]
    rfl
  cases driverOpts with
  | none => simp [CreateMachine_nil, eventsOf, backendCalls] at h
  | some c =>
    rw [backendCalls_CreateMachine, List.mem_singleton] at h
    subst h
    refine ⟨?_, ?_, ?_, ?_, hlen⟩ <;>
      simp [createMachineOpts, lookup_mergeOpts, lookup_reservedOverrides]

theorem CreateMachine_reserved_keys_witness :
    createMachineOpts (exampleState (some conflictingGlobal)).d
        (reservedOverrides conflictingCall) ∈
      backendCalls (eventsOf (CreateMachine (workingBackend "10.0.0.5")
        (some conflictingCall)) (exampleState (some conflictingGlobal))) ∧
    conflictingCall.lookup "swarm-master" = some (Value.bool true) ∧
    conflictingGlobal.lookup "swarm-discovery" = some (Value.str "token://global") ∧
    (createMachineOpts (exampleState (some conflictingGlobal)).d
      (reservedOverrides conflictingCall)).Params.lookup "swarm-master" =
        some (Value.bool false) ∧
    (createMachineOpts (exampleState (some conflictingGlobal)).d
      (reservedOverrides conflictingCall)).Params.lookup "swarm-host" =
        some (Value.str "") ∧
    (createMachineOpts (exampleState (some conflictingGlobal)).d
      (reservedOverrides conflictingCall)).Params.lookup "engine-install-url" =
        some (Value.str "") ∧
    (createMachineOpts (exampleState (some conflictingGlobal)).d
      (reservedOverrides conflictingCall)).Params.lookup "swarm-discovery" =
        some (Value.str "") :=
  have hmem : createMachineOpts (exampleState (some conflictingGlobal)).d
      (reservedOverrides conflictingCall) ∈
      backendCalls (eventsOf (CreateMachine (workingBackend "10.0.0.5")
        (some conflictingCall)) (exampleState (some conflictingGlobal))) :=
    List.mem_singleton.mpr rfl
  have r := CreateMachine_reserved_keys (workingBackend "10.0.0.5")
    (exampleState (some conflictingGlobal)) (some conflictingCall) _ hmem
  ⟨hmem, by decide, by decide, r.1, r.2.1, r.2.2.1, r.2.2.2.1⟩

/-- C4 (amended): the `Params` handed to the backend read, at every key, the caller's
value after the four reserved keys were written into the caller's map when that map has the
key, otherwise the global value when the global map has the key, and nothing at any other
key; with global options binding `a` to 1 and call options binding `a` to 2 and `b` to 3
the result binds `a` to 2, `b` to 3 and the four reserved keys to their forced values,
and the two merge loops alone turn those two maps into the call map. -/
theorem CreateMachine_merge (env : Env) (s : St) (driverOpts : GoMap)
    (opts : CreateMachineOpts)
    (h : opts ∈ backendCalls (eventsOf (CreateMachine env driverOpts) s)) :
    ∃ c : Table, driverOpts = some c ∧
      (∀ k : String, opts.Params.lookup k =
        match (reservedOverrides c).lookup k with
        | some v => some v
        | none => GoMap.lookup s.d.globalDriverOpts k) ∧
      (∀ k : String, (reservedOverrides c).lookup k = none →
        GoMap.lookup s.d.globalDriverOpts k = none → opts.Params.lookup k = none) ∧
      (s.d.globalDriverOpts = some exampleGlobal → c = exampleCall →
        Table.sameAs opts.Params exampleMerged) ∧
      Table.sameAs (mergeOpts (some exampleGlobal) exampleCall) exampleCall := by
  cases driverOpts with
  | none => simp [CreateMachine_nil, eventsOf, backendCalls] at h
  | some c =>
    rw [backendCalls_CreateMachine, List.mem_singleton] at h
    subst h
    refine ⟨c, rfl, fun k => lookup_mergeOpts _ _ k, ?_, ?_, ?_⟩
    · intro k h1 h2
      simp only [createMachineOpts, lookup_mergeOpts, h1, h2]
    · intro hg hc k
      simp only [createMachineOpts, hg, hc, lookup_mergeOpts, lookup_reservedOverrides, exampleMerged,
        exampleCall, exampleGlobal, lookup_set, GoMap.lookup, AList.lookup_empty]
      split_ifs <;> rfl
    · intro k
      simp only [lookup_mergeOpts, exampleCall, exampleGlobal, lookup_set, GoMap.lookup,
        AList.lookup_empty]
      split_ifs <;> rfl

theorem CreateMachine_merge_witness :
    createMachineOpts (exampleState (some exampleGlobal)).d (reservedOverrides exampleCall) ∈
      backendCalls (eventsOf (CreateMachine (workingBackend "10.0.0.5")
        (some exampleCall)) (exampleState (some exampleGlobal))) ∧
    Table.sameAs
      (createMachineOpts (exampleState (some exampleGlobal)).d
        (reservedOverrides exampleCall)).Params
      exampleMerged :=
  have hmem : createMachineOpts (exampleState (some exampleGlobal)).d
      (reservedOverrides exampleCall) ∈
      backendCalls (eventsOf (CreateMachine (workingBackend "10.0.0.5")
        (some exampleCall)) (exampleState (some exampleGlobal))) :=
    List.mem_singleton.mpr rfl
  ⟨hmem,
    match CreateMachine_merge (workingBackend "10.0.0.5") (exampleState (some exampleGlobal))
        (some exampleCall) _ hmem with
    | ⟨_, hc, _, _, hex, _⟩ => hex rfl (Option.some.inj hc).symm⟩

/-- C4 as stated fails on its own example: with global options binding `a` to 1 and call
options binding `a` to 2 and `b` to 3, the `Params` the backend receives also bind
`swarm-master`, so they are not the two-entry map of the claim. -/
theorem merge_example_has_reserved_keys :
    (backendCalls (eventsOf (CreateMachine (workingBackend "10.0.0.5") (some exampleCall))
        (exampleState (some exampleGlobal)))).length = 1 ∧
    ∀ o ∈ backendCalls (eventsOf (CreateMachine (workingBackend "10.0.0.5")
        (some exampleCall)) (exampleState (some exampleGlobal))),
      o.Params.lookup "swarm-master" = some (Value.bool false) ∧
      exampleCall.lookup "swarm-master" = none ∧
      ¬ Table.sameAs o.Params exampleCall := by
  refine ⟨by rfl, ?_⟩
  intro o ho
  rw [backendCalls_CreateMachine, List.mem_singleton] at ho
  subst ho
  have h1 : (createMachineOpts (exampleState (some exampleGlobal)).d
      (reservedOverrides exampleCall)).Params.lookup "swarm-master" =
        some (Value.bool false) := by
    decide
  have h2 : exampleCall.lookup "swarm-master" = none := by decide
  refine ⟨h1, h2, ?_⟩
  intro hsame
  have := hsame "swarm-master"
  rw [h2] at this
  exact absurd (h1.symm.trans this) (by simp)

/-- C5 (amended): with an allocated `driverOpts` map `CreateMachine` does not stop in a
run-time fault, and with the empty map it calls the backend once with `Params` that read
the forced value at each of the four reserved keys and the global value at every other
key; with the nil map it stops in a run-time fault at the first reserved-key assignment,
before the counter moves and before any collaborator is called. -/
theorem CreateMachine_empty_or_nil (env : Env) (s : St) :
    (∀ (c : Table) (r : String),
      (CreateMachine env (some c) s).1 ≠ Outcome.abort r) ∧
    (∃ opts : CreateMachineOpts,
      backendCalls (eventsOf (CreateMachine env (some ∅)) s) = [opts] ∧
      ∀ k : String, opts.Params.lookup k =
        if k = "swarm-discovery" then some (Value.str "")
        else if k = "engine-install-url" then some (Value.str "")
        else if k = "swarm-host" then some (Value.str "")
        else if k = "swarm-master" then some (Value.bool false)
        else GoMap.lookup s.d.globalDriverOpts k) ∧
    (CreateMachine env none s).1 = Outcome.abort "assignment to entry in nil map" ∧
    (CreateMachine env none s).2.d = s.d ∧
    eventsOf (CreateMachine env none) s = [] := by
  refine ⟨?_, ?_, rfl, rfl, ?_⟩
  · intro c r
    rcases CreateMachine_cases env s c with ⟨e, h⟩ | ⟨m, h, ha⟩ | ⟨m, sans, h, ha⟩
    · simp [CreateMachine_of_error env s c e h]
    · simp [CreateMachine_of_noAuth env s c m h ha]
    · rw [CreateMachine_of_auth env s c m sans h ha]
      split <;> simp
  · refine ⟨_, backendCalls_CreateMachine env s ∅, ?_⟩
    intro k
    simp only [createMachineOpts, lookup_mergeOpts, lookup_reservedOverrides, AList.lookup_empty]
    split_ifs <;> rfl
  · simp [eventsOf, CreateMachine_nil]

/-- C5 as stated fails for the nil map: `CreateMachine` stops in a run-time fault and the
backend is never called. -/
theorem CreateMachine_nil_aborts :
    (CreateMachine (workingBackend "10.0.0.5") none freshState).1 =
      Outcome.abort "assignment to entry in nil map" ∧
    backendCalls (eventsOf (CreateMachine (workingBackend "10.0.0.5") none) freshState) = [] :=
  ⟨rfl, rfl⟩

/-! ## Failure reporting of `CreateMachine`: C9 -/

/-- C9 (amended): when the backend creation fails with `e`, `CreateMachine` returns
exactly `e`, no machine, and the backend call is the only thing it did (no auth
reconfiguration); when `ConfigureAuth` fails with `e`, `CreateMachine` returns exactly
`e` as well, so the two failures reach the caller as the same result. -/
theorem CreateMachine_error_results (env : Env) (s : St) (driverOpts : GoMap) (e : Err) :
    (∀ opts : CreateMachineOpts,
      Event.apiCreateMachine opts (Except.error e) ∈
          eventsOf (CreateMachine env driverOpts) s →
        (CreateMachine env driverOpts s).1 = Outcome.error e ∧
        eventsOf (CreateMachine env driverOpts) s =
          [Event.apiCreateMachine opts (Except.error e)]) ∧
    (∀ m : Machine,
      Event.configureAuth m (some e) ∈ eventsOf (CreateMachine env driverOpts) s →
        (CreateMachine env driverOpts s).1 = Outcome.error e) := by
  cases driverOpts with
  | none => simp [CreateMachine_nil, eventsOf]
  | some c =>
    rcases CreateMachine_cases env s c with ⟨e1, h⟩ | ⟨m1, h, ha⟩ | ⟨m1, sans, h, ha⟩
    · simp only [eventsOf, CreateMachine_of_error env s c e1 h, List.drop_left]
      simp
      intro he
      exact he.symm
    · simp only [eventsOf, CreateMachine_of_noAuth env s c m1 h ha, List.drop_left]
      simp
    · simp only [eventsOf, CreateMachine_of_auth env s c m1 sans h ha, List.drop_left]
      simp
      intro he
      rw [← he]

theorem CreateMachine_error_results_witness :
    Event.apiCreateMachine (createMachineOpts freshState.d (reservedOverrides ∅))
        (Except.error "quota exceeded") ∈
      eventsOf (CreateMachine (failingBackend "quota exceeded") (some ∅)) freshState ∧
    (CreateMachine (failingBackend "quota exceeded") (some ∅) freshState).1 =
      Outcome.error "quota exceeded" ∧
    Event.configureAuth
        { exampleMachine "tsuru-1" "10.0.0.5" with authOptions := some ["10.0.0.5"] }
        (some "ssh: handshake failed") ∈
      eventsOf (CreateMachine (authFailingBackend "10.0.0.5" "ssh: handshake failed")
        (some ∅)) freshState ∧
    (CreateMachine (authFailingBackend "10.0.0.5" "ssh: handshake failed") (some ∅)
      freshState).1 = Outcome.error "ssh: handshake failed" :=
  have h1 : Event.apiCreateMachine (createMachineOpts freshState.d (reservedOverrides ∅))
      (Except.error "quota exceeded") ∈
      eventsOf (CreateMachine (failingBackend "quota exceeded") (some ∅)) freshState :=
    List.mem_singleton.mpr rfl
  have h2 : Event.configureAuth
      { exampleMachine "tsuru-1" "10.0.0.5" with authOptions := some ["10.0.0.5"] }
      (some "ssh: handshake failed") ∈
      eventsOf (CreateMachine (authFailingBackend "10.0.0.5" "ssh: handshake failed")
        (some ∅)) freshState :=
    List.mem_cons_of_mem _ (List.mem_singleton.mpr rfl)
  ⟨h1,
    ((CreateMachine_error_results (failingBackend "quota exceeded") freshState (some ∅)
      "quota exceeded").1 _ h1).1,
    h2,
    (CreateMachine_error_results (authFailingBackend "10.0.0.5" "ssh: handshake failed")
      freshState (some ∅) "ssh: handshake failed").2 _ h2⟩

/-- C9 as stated fails on its last part: a backend creation that fails with `e` and a
`ConfigureAuth` that fails with the same `e` after a successful creation give the same
result of `CreateMachine`, and the same result of `ProvisionMachine`. -/
theorem CreateMachine_auth_error_not_distinct :
    (CreateMachine (failingBackend "timeout") (some ∅) freshState).1 =
      (CreateMachine (authFailingBackend "10.0.0.5" "timeout") (some ∅) freshState).1 ∧
    (CreateMachine (failingBackend "timeout") (some ∅) freshState).1 =
      Outcome.error "timeout" ∧
    (ProvisionMachine (failingBackend "timeout") (some ∅) freshState).1 =
      (ProvisionMachine (authFailingBackend "10.0.0.5" "timeout") (some ∅) freshState).1 ∧
    (eventsOf (CreateMachine (failingBackend "timeout") (some ∅)) freshState).length = 1 ∧
    (eventsOf (CreateMachine (authFailingBackend "10.0.0.5" "timeout") (some ∅))
      freshState).length = 2 := by
  refine ⟨?_, ?_, ?_, ?_, ?_⟩ <;> decide

/-! ## Ordering of the bootstrap steps: C8 -/

/-- C8: in every run of `uploadRegistryCertificate` in which the remote command that
creates `/etc/docker/certs.d` fails with `e`, the call returns `e`, and the remote
actions of the run are exactly two: the creation of the per-registry directory under
the user's home, which succeeded, and the failed command; no file copy and no later
remote command is attempted. -/
theorem uploadRegistryCertificate_certsDir_failure (env : Env) (s : St) (ip user : String)
    (target : Target) (e : Err)
    (h : Event.runSSHCommand target "sudo mkdir /etc/docker/certs.d" (some e) ∈
      eventsOf (uploadRegistryCertificate env ip user target) s) :
    (uploadRegistryCertificate env ip user target s).1 = Outcome.error e ∧
    ∃ registryIP : String,
      (eventsOf (uploadRegistryCertificate env ip user target) s).filter Event.isRemote =
        [Event.runSSHCommand target
            ("mkdir -p /home/" ++ user ++ "/certs/" ++ registryIP ++ ":5000") none,
          Event.runSSHCommand target "sudo mkdir /etc/docker/certs.d" (some e)] := by
  obtain ⟨o, evs, hsel, hloc, hup⟩ := uploadRegistryCertificate_split env ip user target s
  have hnot : Event.runSSHCommand target "sudo mkdir /etc/docker/certs.d" (some e) ∉ evs :=
    fun hm => localEvent_not_ssh (hloc _ hm)
  rw [← mkdirCerts_literal] at h hnot ⊢
  cases o with
  | error e1 =>
    simp only at hup
    rw [eventsOf_of_snd _ s s.d evs (by rw [hup])] at h
    exact absurd h hnot
  | abort r =>
    simp only at hup
    rw [eventsOf_of_snd _ s s.d evs (by rw [hup])] at h
    exact absurd h hnot
  | ok registryIP =>
    simp only at hup
    rcases uploadSteps_run env s.d.certsPath user target registryIP ⟨s.d, s.trace ++ evs⟩ with
      ⟨e1, h1⟩ | ⟨e2, h2⟩ | ⟨rest, h3, hrest, _⟩
    · rw [h1] at hup
      rw [eventsOf_append _ s s.d evs _ (by rw [hup])] at h
      rcases List.mem_append.mp h with hm | hm
      · exact absurd hm hnot
      · simp only [List.mem_cons, List.mem_singleton, List.not_mem_nil, or_false] at hm
        rcases hm with hm | hm
        · cases hm
        · injection hm with _ hc _
          exact absurd hc.symm (mkdirHome_ne_mkdirCerts _)
    · rw [h2] at hup
      rw [eventsOf_append _ s s.d evs _ (by rw [hup])] at h ⊢
      rcases List.mem_append.mp h with hm | hm
      · exact absurd hm hnot
      · simp only [List.mem_cons, List.mem_singleton, List.not_mem_nil, or_false] at hm
        rcases hm with hm | hm | hm
        · cases hm
        · injection hm with _ _ hr
          cases hr
        · injection hm with _ _ hr
          injection hr with hr
          subst hr
          refine ⟨by rw [hup], registryIP, ?_⟩
          rw [List.filter_append, filter_remote_local evs hloc, ← certsBasePath_literal]
          rfl
    · rw [← hup] at h3
      rw [eventsOf_append _ s s.d evs _ h3] at h
      rcases List.mem_append.mp h with hm | hm
      · exact absurd hm hnot
      · simp only [List.mem_cons] at hm
        rcases hm with hm | hm | hm | hm
        · cases hm
        · injection hm with _ _ hr
          cases hr
        · injection hm with _ _ hr
          cases hr
        · exact absurd rfl (hrest _ hm (some e))

theorem uploadRegistryCertificate_certsDir_failure_witness :
    Event.runSSHCommand "tsuru-1" "sudo mkdir /etc/docker/certs.d" (some "exit status 1") ∈
      eventsOf (uploadRegistryCertificate (certsDirFailEnv "10.0.0.5") "10.0.0.5" "ubuntu"
        "tsuru-1") freshState ∧
    (uploadRegistryCertificate (certsDirFailEnv "10.0.0.5") "10.0.0.5" "ubuntu" "tsuru-1"
      freshState).1 = Outcome.error "exit status 1" ∧
    ∃ registryIP : String,
      (eventsOf (uploadRegistryCertificate (certsDirFailEnv "10.0.0.5") "10.0.0.5" "ubuntu"
          "tsuru-1") freshState).filter Event.isRemote =
        [Event.runSSHCommand "tsuru-1"
            ("mkdir -p /home/" ++ "ubuntu" ++ "/certs/" ++ registryIP ++ ":5000") none,
          Event.runSSHCommand "tsuru-1" "sudo mkdir /etc/docker/certs.d"
            (some "exit status 1")] :=
  have hmem : Event.runSSHCommand "tsuru-1" "sudo mkdir /etc/docker/certs.d"
      (some "exit status 1") ∈
      eventsOf (uploadRegistryCertificate (certsDirFailEnv "10.0.0.5") "10.0.0.5" "ubuntu"
        "tsuru-1") freshState := by
    simp [eventsOf, uploadRegistryCertificate, selectRegistryIP, createRegistryCertificate,
      uploadSteps, M.andThen, printf, runSSHCommand, St.log, certsDirFailEnv, workingBackend,
      failingBackend, freshState, dockerCertsPath, certsBasePath]
  ⟨hmem, uploadRegistryCertificate_certsDir_failure (certsDirFailEnv "10.0.0.5") freshState
    "10.0.0.5" "ubuntu" "tsuru-1" "exit status 1" hmem⟩

/-! ## Registry-IP selection: C6 -/

/-- C6: when `registry-cert.pem` is absent, certificate generation is invoked exactly
once, with hosts equal to the one-element list of the machine IP, and then either the
generation failed, its error is returned and no remote action takes place, or the first
remote action creates the directory `certs/<ip>:5000` under the user's home; when the
file is present, is read, decodes and parses to a certificate with at least one IP
address, generation is not invoked and the first remote action creates the directory
`certs/<first certificate IP>:5000` under the user's home, whatever the machine IP is. -/
theorem uploadRegistryCertificate_registryIP (env : Env) (s : St) (ip user : String)
    (target : Target) :
    (env.statNotExist s.trace (env.join s.d.certsPath "registry-cert.pem") = true →
      generatedHosts (eventsOf (uploadRegistryCertificate env ip user target) s) = [[ip]] ∧
      ((∃ e, (uploadRegistryCertificate env ip user target s).1 = Outcome.error e ∧
          (∃ o, Event.generateCert o (some e) ∈
            eventsOf (uploadRegistryCertificate env ip user target) s) ∧
          (eventsOf (uploadRegistryCertificate env ip user target) s).filter
            Event.isRemote = []) ∨
        ∃ r, ((eventsOf (uploadRegistryCertificate env ip user target) s).filter
            Event.isRemote).head? =
          some (Event.runSSHCommand target
            ("mkdir -p /home/" ++ user ++ "/certs/" ++ ip ++ ":5000") r))) ∧
    (∀ (data block : Bytes) (cert : Certificate) (first : String) (others : List String),
      env.statNotExist s.trace (env.join s.d.certsPath "registry-cert.pem") = false →
      env.readFile
          (s.trace ++ [Event.stat (env.join s.d.certsPath "registry-cert.pem") false])
          (env.join s.d.certsPath "registry-cert.pem") = Except.ok data →
      env.pemDecode data = some block →
      env.parseCertificate block = Except.ok cert →
      cert.IPAddresses = first :: others →
      generatedHosts (eventsOf (uploadRegistryCertificate env ip user target) s) = [] ∧
      ∃ r, ((eventsOf (uploadRegistryCertificate env ip user target) s).filter
          Event.isRemote).head? =
        some (Event.runSSHCommand target
          ("mkdir -p /home/" ++ user ++ "/certs/" ++ first ++ ":5000") r)) := by
  constructor
  · intro habsent
    have hsel := selectRegistryIP_absent env ip _ s habsent
    cases hg : env.generateCert
        (s.trace ++ [Event.stat (env.join s.d.certsPath "registry-cert.pem") true,
          Event.print "Creating registry certificate...\n"])
        (registryCertOptions env s.d.certsPath [ip]) with
    | some e =>
      rw [hg] at hsel
      have hup : uploadRegistryCertificate env ip user target s = _ :=
        andThen_error _ _ _ _ _ hsel
      have hev := eventsOf_of_snd (uploadRegistryCertificate env ip user target) s s.d
        [Event.stat (env.join s.d.certsPath "registry-cert.pem") true,
          Event.print "Creating registry certificate...\n",
          Event.generateCert (registryCertOptions env s.d.certsPath [ip]) (some e)]
        (by rw [hup])
      rw [hev]
      refine ⟨by simp [generatedHosts, registryCertOptions], Or.inl ⟨e, by rw [hup], ?_, ?_⟩⟩
      · exact ⟨registryCertOptions env s.d.certsPath [ip], by simp⟩
      · simp [Event.isRemote]
    | none =>
      rw [hg] at hsel
      have hloc : ∀ e ∈ [Event.stat (env.join s.d.certsPath "registry-cert.pem") true,
          Event.print "Creating registry certificate...\n",
          Event.generateCert (registryCertOptions env s.d.certsPath [ip]) none],
          localEvent e := by
        intro e he
        simp only [List.mem_cons, List.mem_singleton, List.not_mem_nil, or_false] at he
        rcases he with h1 | h1 | h1
        · exact Or.inl ⟨_, _, h1⟩
        · exact Or.inr (Or.inl ⟨_, h1⟩)
        · exact Or.inr (Or.inr (Or.inl ⟨_, _, h1⟩))
      obtain ⟨r, hhead, hgen⟩ :=
        uploadRegistryCertificate_after_select env ip user target s ip _ hsel hloc
      refine ⟨?_, Or.inr ⟨r, hhead⟩⟩
      rw [hgen]
      simp [generatedHosts, registryCertOptions]
  · intro data block cert first others hpresent hread hpem hparse hips
    have hsel := selectRegistryIP_present env ip _ s hpresent
    rw [hread] at hsel
    have hip : registryIPFromFile env (Except.ok data) = Outcome.ok first := by
      simp [registryIPFromFile, hpem, hparse, hips]
    rw [hip] at hsel
    have hloc : ∀ e ∈ [Event.stat (env.join s.d.certsPath "registry-cert.pem") false,
        Event.readFile (env.join s.d.certsPath "registry-cert.pem") (Except.ok data)],
        localEvent e := by
      intro e he
      simp only [List.mem_cons, List.mem_singleton, List.not_mem_nil, or_false] at he
      rcases he with h1 | h1
      · exact Or.inl ⟨_, _, h1⟩
      · exact Or.inr (Or.inr (Or.inr ⟨_, _, h1⟩))
    obtain ⟨r, hhead, hgen⟩ :=
      uploadRegistryCertificate_after_select env ip user target s first _ hsel hloc
    refine ⟨?_, ⟨r, hhead⟩⟩
    rw [hgen]
    simp [generatedHosts]

theorem uploadRegistryCertificate_registryIP_witness :
    (workingBackend "10.0.0.5").statNotExist freshState.trace
      ((workingBackend "10.0.0.5").join freshState.d.certsPath "registry-cert.pem") = true ∧
    generatedHosts (eventsOf (uploadRegistryCertificate (workingBackend "10.0.0.5")
      "10.0.0.5" "ubuntu" "tsuru-1") freshState) = [["10.0.0.5"]] ∧
    (reuseEnv "10.0.0.9" ["10.0.0.5"]).statNotExist freshState.trace
      ((reuseEnv "10.0.0.9" ["10.0.0.5"]).join freshState.d.certsPath "registry-cert.pem") =
        false ∧
    generatedHosts (eventsOf (uploadRegistryCertificate (reuseEnv "10.0.0.9" ["10.0.0.5"])
      "10.0.0.9" "ubuntu" "tsuru-2") freshState) = [] ∧
    ∃ r, ((eventsOf (uploadRegistryCertificate (reuseEnv "10.0.0.9" ["10.0.0.5"])
        "10.0.0.9" "ubuntu" "tsuru-2") freshState).filter Event.isRemote).head? =
      some (Event.runSSHCommand "tsuru-2"
        ("mkdir -p /home/" ++ "ubuntu" ++ "/certs/" ++ "10.0.0.5" ++ ":5000") r) :=
  have hreuse := (uploadRegistryCertificate_registryIP (reuseEnv "10.0.0.9" ["10.0.0.5"])
    freshState "10.0.0.9" "ubuntu" "tsuru-2").2 [45, 45, 45, 45, 45, 66, 69, 71, 73, 78]
    [48, 130] { IPAddresses := ["10.0.0.5"] } "10.0.0.5" [] rfl rfl rfl rfl rfl
  ⟨rfl,
    ((uploadRegistryCertificate_registryIP (workingBackend "10.0.0.5") freshState "10.0.0.5"
      "ubuntu" "tsuru-1").1 rfl).1,
    rfl, hreuse.1, hreuse.2⟩

/-! ## Abnormal termination of the bootstrap: C7 -/

/-- C7 fails on the code: when `registry-cert.pem` exists but holds no PEM block the call
stops in a nil dereference, and when it holds a certificate without IP addresses the
call stops in an out-of-range index; neither is returned as an error. A block that does
not parse as a certificate is returned as an error. -/
theorem uploadRegistryCertificate_aborts :
    (uploadRegistryCertificate (garbageCertEnv "10.0.0.9") "10.0.0.9" "ubuntu" "tsuru-2"
      freshState).1 = Outcome.abort "invalid memory address or nil pointer dereference" ∧
    (uploadRegistryCertificate (reuseEnv "10.0.0.9" []) "10.0.0.9" "ubuntu" "tsuru-2"
      freshState).1 = Outcome.abort "index out of range [0] with length 0" ∧
    (uploadRegistryCertificate (malformedCertEnv "10.0.0.9") "10.0.0.9" "ubuntu" "tsuru-2"
      freshState).1 =
        Outcome.error "failed to parse registry certificate: asn1: structure error" := by
  refine ⟨?_, ?_, ?_⟩ <;> decide

/-! ## Concurrent name generation: C2 -/

/-- C2 fails on the code: two concurrent calls on a fresh orchestrator whose adds both
happen before either load make both calls return sequence number 2 and the same name,
under a schedule that gives each call exactly its two atomic actions; run one after the
other the two calls return 1 and 2. -/
theorem concurrent_generateMachineName_duplicate :
    completeSchedule 2 [0, 1, 0, 1] ∧
    returnedSeqs (runSchedule [0, 1, 0, 1] (startCalls 2 freshState.d)).1 = [2, 2] ∧
    returnedNames (runSchedule [0, 1, 0, 1] (startCalls 2 freshState.d)).1 =
      ["tsuru-2", "tsuru-2"] ∧
    completeSchedule 2 [0, 0, 1, 1] ∧
    returnedSeqs (runSchedule [0, 0, 1, 1] (startCalls 2 freshState.d)).1 = [1, 2] := by
  refine ⟨?_, ?_, ?_, ?_, ?_⟩ <;> decide

/-! ## The entry point: C10 -/

/-- C10: `ProvisionMachine` returns the created machine exactly when `CreateMachine`
returns it and `uploadRegistryCertificate`, run on that machine's private IP, SSH user
name and host, succeeds; when creation fails with `e` it returns the message
`error creating machine ` followed by `e` and stops in the state `CreateMachine` left,
so nothing of the bootstrap is attempted; when the bootstrap fails with `e` it returns
`error uploading registry certificates to `, the machine address, a colon, a blank and
`e`; and none of its events is a backend teardown call. -/
theorem ProvisionMachine_composition (env : Env) (s : St) (driverOpts : GoMap) :
    (∀ m : Machine, (ProvisionMachine env driverOpts s).1 = Outcome.ok m ↔
      ∃ s1, CreateMachine env driverOpts s = (Outcome.ok m, s1) ∧
        (uploadRegistryCertificate env (env.getPrivateIP m) m.sshUsername m.Host s1).1 =
          Outcome.ok ()) ∧
    (∀ (e : Err) (s1 : St), CreateMachine env driverOpts s = (Outcome.error e, s1) →
      ProvisionMachine env driverOpts s =
        (Outcome.error ("error creating machine " ++ e), s1) ∧
      eventsOf (ProvisionMachine env driverOpts) s =
        eventsOf (CreateMachine env driverOpts) s) ∧
    (∀ (m : Machine) (s1 : St) (e : Err) (s2 : St),
      CreateMachine env driverOpts s = (Outcome.ok m, s1) →
      uploadRegistryCertificate env (env.getPrivateIP m) m.sshUsername m.Host s1 =
        (Outcome.error e, s2) →
      ProvisionMachine env driverOpts s =
        (Outcome.error
          ("error uploading registry certificates to " ++ m.Address ++ ": " ++ e), s2)) ∧
    (∀ ev ∈ eventsOf (ProvisionMachine env driverOpts) s, ev.isTeardown = false) := by
  refine ⟨?_, ?_, ?_, ?_⟩
  · intro m
    rcases hc : CreateMachine env driverOpts s with ⟨o, s1⟩
    cases o with
    | error e => simp [ProvisionMachine, hc]
    | abort r => simp [ProvisionMachine, hc]
    | ok m1 =>
      rcases hu : uploadRegistryCertificate env (env.getPrivateIP m1) m1.sshUsername
        m1.Host s1 with ⟨o2, s2⟩
      cases o2 with
      | error e =>
        simp [ProvisionMachine, hc, hu]
        intro h
        subst h
        simp [hu]
      | abort r =>
        simp [ProvisionMachine, hc, hu]
        intro h
        subst h
        simp [hu]
      | ok u =>
        simp only [ProvisionMachine, hc, hu, Outcome.ok.injEq, Prod.mk.injEq]
        constructor
        · intro h
          subst h
          exact ⟨s1, ⟨rfl, rfl⟩, by rw [hu]⟩
        · rintro ⟨s3, ⟨h, _⟩, _⟩
          exact h
  · intro e s1 hc
    have hp : ProvisionMachine env driverOpts s =
        (Outcome.error ("error creating machine " ++ e), s1) := by
      simp [ProvisionMachine, hc]
    exact ⟨hp, by simp [eventsOf, hp, hc]⟩
  · intro m s1 e s2 hc hu
    simp [ProvisionMachine, hc, hu]
  · obtain ⟨evs, htr, hevs⟩ := CreateMachine_trace env driverOpts s
    rcases hc : CreateMachine env driverOpts s with ⟨o, s1⟩
    rw [hc] at htr
    simp only at htr
    cases o with
    | error e =>
      intro ev hev
      have hp : ProvisionMachine env driverOpts s =
          (Outcome.error ("error creating machine " ++ e), s1) := by
        simp [ProvisionMachine, hc]
      simp only [eventsOf, hp, htr, List.drop_left] at hev
      exact hevs ev hev
    | abort r =>
      intro ev hev
      have hp : ProvisionMachine env driverOpts s = (Outcome.abort r, s1) := by
        simp [ProvisionMachine, hc]
      simp only [eventsOf, hp, htr, List.drop_left] at hev
      exact hevs ev hev
    | ok m =>
      obtain ⟨evs2, hs2, hevs2⟩ := Emits_uploadRegistryCertificate env (env.getPrivateIP m)
        m.sshUsername m.Host s1
      have hp : (ProvisionMachine env driverOpts s).2 =
          (uploadRegistryCertificate env (env.getPrivateIP m) m.sshUsername m.Host s1).2 := by
        simp only [ProvisionMachine, hc]
        split <;> simp_all
      intro ev hev
      simp only [eventsOf, hp, hs2, htr, List.append_assoc, List.drop_left] at hev
      rcases List.mem_append.mp hev with h | h
      · exact hevs ev h
      · exact bootstrap_not_teardown (hevs2 ev h)

theorem ProvisionMachine_composition_witness :
    ProvisionMachine (failingBackend "quota exceeded") (some ∅) freshState =
      (Outcome.error ("error creating machine " ++ "quota exceeded"),
        (CreateMachine (failingBackend "quota exceeded") (some ∅) freshState).2) ∧
    ProvisionMachine (sshFailEnv "10.0.0.5" "connection refused") (some ∅) freshState =
      (Outcome.error ("error uploading registry certificates to " ++
          (Machine.mk "10.0.0.5" "tsuru-1" "ubuntu" (some ["10.0.0.5"])).Address ++ ": " ++
          "connection refused"),
        (ProvisionMachine (sshFailEnv "10.0.0.5" "connection refused") (some ∅)
          freshState).2) ∧
    (ProvisionMachine (workingBackend "10.0.0.5") (some ∅) freshState).1 =
      Outcome.ok (Machine.mk "10.0.0.5" "tsuru-1" "ubuntu" (some ["10.0.0.5"])) :=
  ⟨((ProvisionMachine_composition (failingBackend "quota exceeded") freshState (some ∅)).2.1
      "quota exceeded" _ rfl).1,
    (ProvisionMachine_composition (sshFailEnv "10.0.0.5" "connection refused") freshState
      (some ∅)).2.2.1 (Machine.mk "10.0.0.5" "tsuru-1" "ubuntu" (some ["10.0.0.5"])) _
      "connection refused" _ rfl rfl,
    ((ProvisionMachine_composition (workingBackend "10.0.0.5") freshState (some ∅)).1
      (Machine.mk "10.0.0.5" "tsuru-1" "ubuntu" (some ["10.0.0.5"]))).2 ⟨_, rfl, rfl⟩⟩

end Dm
